import Mathlib

/-!
# DHT11 sensor driver with LED bar (`dht11_ledbar.c`)

A shallow embedding of the kernel module's sampling path, cache, LED bar mapping
and query interface.

Modelling conventions:

* `u8` values are natural numbers, `int` values are integers; the only place where the
  width of a byte matters (the shift in the bit-capture loop) reduces modulo `256`.
* The data line is a sequence `line : Nat → Int`: `line k` is what the `k`-th call of
  `gpio_get_value(dht_gpio)` returns during one transaction.  Each call consumes one
  element; `udelay` does not appear in the model.
* `jiffies` is an explicit, unbounded integer clock that ticks in milliseconds, so that
  `msecs_to_jiffies` and `jiffies_to_msecs` are the identity and `time_before a b` is
  `a - b < 0`.
* The mutex `dht_lock` serialises the operations; each operation is one atomic step.
* Each fallible kernel call takes its outcome from an environment record.
-/

namespace Dht11

/-! ## Constants -/

/-- Value of the kernel errno `EIO`. -/
def EIO_val : Int := 5
/-- Value of the kernel errno `EFAULT`. -/
def EFAULT : Int := 14
/-- Value of the kernel errno `EINVAL`. -/
def EINVAL : Int := 22
/-- Value of the kernel errno `ENOTTY`. -/
def ENOTTY : Int := 25
/-- Value of the kernel errno `ENOMEM`. -/
def ENOMEM : Int := 12
/-- Value of the kernel errno `ETIMEDOUT`. -/
def ETIMEDOUT : Int := 110

/-- Data pin of the sensor: `static int dht_gpio = 4`. -/
def dht_gpio : Nat := 4

/-- LED bar pins: `static int led_gpios[8] = {23, 24, 25, 12, 16, 20, 21, 26}`. -/
def led_gpios : List Nat := [23, 24, 25, 12, 16, 20, 21, 26]

/-- Number of LED bar pins: `static int led_gpios_num = 8`. -/
def led_gpios_num : Nat := 8

/-- Linux ioctl request encoding `_IOR(type, nr, size)`: direction read (2) in bits 30..31,
size in bits 16..29, type in bits 8..15, number in bits 0..7. -/
def IOR (type nr size : Nat) : Nat := 2 * 2 ^ 30 + size * 2 ^ 16 + type * 2 ^ 8 + nr

/-- The request code `DHT11_IOCTL_READ = _IOR('d', 0x01, struct dht11_data)`; the record
has three bytes. -/
def DHT11_IOCTL_READ : Nat := IOR 100 1 3

/-! ## Data model -/

/-- The record `struct dht11_data { __u8 temp; __u8 humi; __u8 ok; }`. -/
structure dht11_data where
  temp : Nat
  humi : Nat
  ok : Nat
deriving DecidableEq, Repr

/-- The module's globals: the cache `g_cache`, the sample clock `g_last_sample_j`, and the
level last written to every output pin. -/
structure State where
  g_cache : dht11_data
  g_last_sample_j : Int
  gpio : Nat → Int

/-- What the surroundings contribute to one call of `dht11_sample`. -/
structure Env where
  /-- value of `jiffies` when the call begins -/
  now : Int
  /-- result of `gpio_direction_output(dht_gpio, 0)` -/
  dir_out_ret : Int
  /-- result of `gpio_direction_input(dht_gpio)` -/
  dir_in_ret : Int
  /-- successive results of `gpio_get_value(dht_gpio)` -/
  line : Nat → Int
  /-- clock ticks that pass between the end of the start pulse and the end of the capture -/
  elapsed : Nat

/-! ## Kernel helpers -/

/-- The kernel helper `gpio_set_value(pin, v)` on the map of output levels. -/
def gpio_set_value (gpio : Nat → Int) (pin : Nat) (v : Int) : Nat → Int :=
  Function.update gpio pin v

/-- The kernel helper `msecs_to_jiffies` on a millisecond clock. -/
def msecs_to_jiffies (m : Int) : Int := m

/-- The kernel helper `jiffies_to_msecs` on a millisecond clock. -/
def jiffies_to_msecs (j : Int) : Int := j

/-- The kernel comparison `time_before(a, b)`, that is `(long)(a - b) < 0`. -/
def time_before (a b : Int) : Bool := decide (a - b < 0)

/-- The kernel formatter `scnprintf(buf, size, ...)` applied to the fully formatted text:
at most `size - 1` characters are stored. -/
def scnprintf (size : Nat) (text : String) : String := String.mk (text.data.take (size - 1))

/-! ## LED bar -/

/-- The bar level computed at the top of `ledbar_apply_from_humi`. -/
def ledbar_level (humi : Nat) : Int :=
  let level : Int := ((humi : Int) * 8 + 99) / 100
  let level : Int := if level < 0 then 0 else level
  if level > 8 then 8 else level

/-- The function `ledbar_apply_from_humi`: the loop over the eight LED pins. -/
def ledbar_apply_from_humi (humi : Nat) (gpio : Nat → Int) : Nat → Int :=
  let level := ledbar_level humi
  (List.range 8).foldl
    (fun g i => gpio_set_value g (led_gpios.getD i 0) (if (i : Int) < level then 1 else 0))
    gpio

/-- Output `i` of the LED bar is ON. -/
def led_on (gpio : Nat → Int) (i : Nat) : Bool := decide (gpio (led_gpios.getD i 0) = 1)

/-! ## Sampling -/

/-- The loop of `wait_pin_status`: `counter` failed reads so far, `pos` the index of the
next line read.  Returns the result and the index after the last read, or `none` when the
fuel runs out. -/
def wait_loop (line : Nat → Int) (level time_us : Int) : Nat → Int → Nat → Option (Int × Nat)
  | 0, _, _ => none
  | fuel + 1, counter, pos =>
    if line pos ≠ level then
      if counter + 1 > time_us then some (-ETIMEDOUT, pos + 1)
      else wait_loop line level time_us fuel (counter + 1) (pos + 1)
    else some (counter, pos + 1)

/-- The function `wait_pin_status(level, time_us)` reading the line from index `pos`. -/
def wait_pin_status (line : Nat → Int) (level time_us : Int) (pos : Nat) :
    Option (Int × Nat) :=
  wait_loop line level time_us (time_us.toNat + 1) 0 pos

/-- The body of the loop `for (i = 0; i < 40; i++)` of `dht11_sample`, for the `n`
iterations that remain from index `i`: returns `ret`, the frame and the read index. -/
def capture_bits (line : Nat → Int) :
    Nat → Nat → Int → List Nat → Nat → Option (Int × List Nat × Nat)
  | 0, _, ret, data, pos => some (ret, data, pos)
  | n + 1, i, _, data, pos =>
    match wait_pin_status line 1 120 pos with
    | none => none
    | some (r1, p1) =>
      if r1 < 0 then some (r1, data, p1)
      else
        let bit : Nat := if line p1 ≠ 0 then 1 else 0
        let d1 := (data.getD (i / 8) 0 <<< 1) % 256
        let data1 := data.set (i / 8) d1
        let data2 := data1.set (i / 8) (data1.getD (i / 8) 0 ||| (bit &&& 1))
        match wait_pin_status line 0 150 (p1 + 1) with
        | none => none
        | some (r2, p2) =>
          if r2 < 0 then some (r2, data2, p2)
          else capture_bits line n (i + 1) r2 data2 p2

/-- The timing-critical part of `dht11_sample`, between `local_irq_save` and
`local_irq_restore`: three handshake waits, then forty bits. -/
def capture (line : Nat → Int) : Option (Int × List Nat × Nat) :=
  let data : List Nat := [0, 0, 0, 0, 0]
  match wait_pin_status line 0 200 0 with
  | none => none
  | some (r1, p1) =>
    if r1 < 0 then some (r1, data, p1)
    else
      match wait_pin_status line 1 200 p1 with
      | none => none
      | some (r2, p2) =>
        if r2 < 0 then some (r2, data, p2)
        else
          match wait_pin_status line 0 200 p2 with
          | none => none
          | some (r3, p3) =>
            if r3 < 0 then some (r3, data, p3)
            else capture_bits line 40 0 r3 data p3

/-- The rate gate at the top of `dht11_sample`: the argument handed to `msleep`, or `0`
when the gate does not sleep. -/
def rate_gate (now last : Int) : Int :=
  if time_before now (last + msecs_to_jiffies 1100) then
    let left := (last + msecs_to_jiffies 1100) - now
    jiffies_to_msecs left
  else 0

/-- Outcome of `dht11_sample`: the return value, the contents of `*out_temp` and
`*out_humi`, the globals, the time slept in the rate gate and the number of line reads. -/
structure SampleResult where
  ret : Int
  out_temp : Nat
  out_humi : Nat
  st : State
  slept : Int
  reads : Nat

/-- The function `dht11_sample(out_temp, out_humi)`; `out_temp` and `out_humi` are the
values the two pointers refer to before the call. -/
def dht11_sample (env : Env) (s : State) (out_temp out_humi : Nat) : Option SampleResult :=
  let slept := rate_gate env.now s.g_last_sample_j
  if env.dir_out_ret ≠ 0 then
    some ⟨env.dir_out_ret, out_temp, out_humi, s, slept, 0⟩
  else
    let g1 := gpio_set_value s.gpio dht_gpio 0
    let g2 := gpio_set_value g1 dht_gpio 1
    let s2 : State := { s with gpio := g2 }
    if env.dir_in_ret ≠ 0 then
      some ⟨env.dir_in_ret, out_temp, out_humi, s2, slept, 0⟩
    else
      match capture env.line with
      | none => none
      | some (ret, data, pos) =>
        if ret < 0 then some ⟨ret, out_temp, out_humi, s2, slept, pos⟩
        else if data.getD 4 0 ≠
            ((data.getD 0 0 + data.getD 1 0 + data.getD 2 0 + data.getD 3 0) &&& 0xFF) then
          some ⟨-EIO_val, out_temp, out_humi, s2, slept, pos⟩
        else
          some ⟨0, data.getD 2 0, data.getD 0 0,
            { s2 with g_last_sample_j := env.now + slept + 20 + env.elapsed }, slept, pos⟩

/-- The function `poll_work_fn`: one sample cycle under the lock. -/
def poll_work_fn (env : Env) (s : State) : Option State :=
  match dht11_sample env s 0 0 with
  | none => none
  | some r =>
    if r.ret = 0 then
      some { r.st with
        g_cache := { temp := r.out_temp, humi := r.out_humi, ok := 1 }
        gpio := ledbar_apply_from_humi r.out_humi r.st.gpio }
    else
      some { r.st with g_cache := { r.st.g_cache with ok := 0 } }

/-! ## Query interface -/

/-- Outcome of `dht_read`: the return value, the bytes copied to the caller and the file
offset afterwards. -/
structure ReadResult where
  ret : Int
  out : Option String
  off : Int
deriving DecidableEq

/-- The function `dht_read(filp, buf, len, off)`; `copy_ok` tells whether `copy_to_user`
succeeds. -/
def dht_read (s : State) (copy_ok : Bool) (len : Nat) (off : Int) : ReadResult :=
  if off > 0 then ⟨0, none, off⟩
  else
    let d := s.g_cache
    let msg :=
      if d.ok ≠ 0 then
        scnprintf 64 ("T=" ++ Nat.repr d.temp ++ "C H=" ++ Nat.repr d.humi ++ "%\n")
      else
        scnprintf 64 "DHT11 read error\n"
    let n := msg.length
    if len < n then ⟨-EINVAL, none, off⟩
    else if !copy_ok then ⟨-EFAULT, none, off⟩
    else ⟨n, some msg, off + n⟩

/-- The function `dht_ioctl(filp, cmd, arg)`: the return value and the record copied to the
caller; `copy_ok` tells whether `copy_to_user` succeeds. -/
def dht_ioctl (s : State) (copy_ok : Bool) (cmd : Nat) : Int × Option dht11_data :=
  if cmd ≠ DHT11_IOCTL_READ then (-ENOTTY, none)
  else
    let d := s.g_cache
    if !copy_ok then (-EFAULT, none)
    else (0, some d)

/-! ## Module initialisation -/

/-- Outcomes of the kernel calls made by `dht_init`. -/
structure InitEnv where
  /-- value of `jiffies` when the cache is initialised -/
  jiffies : Int
  /-- result of `gpio_is_valid(dht_gpio)` -/
  dht_valid : Bool
  /-- result of `gpio_request(dht_gpio, ...)` -/
  dht_request : Int
  /-- result of `gpio_is_valid(led_gpios[i])` -/
  led_valid : Nat → Bool
  /-- result of `gpio_request(led_gpios[i], ...)` -/
  led_request : Nat → Int
  /-- result of `gpio_direction_output(led_gpios[i], 0)` -/
  led_dir : Nat → Int
  /-- result of `alloc_chrdev_region` -/
  alloc_ret : Int
  /-- result of `cdev_add` -/
  cdev_ret : Int
  /-- the errno carried by the pointer that `class_create` returns: `IS_ERR(dht_class)`
  holds when it is not 0, and `PTR_ERR(dht_class)` is then its negation -/
  class_err : Nat
  /-- whether `device_create` returns a device -/
  device_ok : Bool

/-- The loop of `request_led_gpios`, for the `n` pins that remain from index `i`; a pin
whose direction is set to output is driven low. -/
def request_led_loop (k : InitEnv) : Nat → Nat → (Nat → Int) → Int × (Nat → Int)
  | 0, _, g => (0, g)
  | n + 1, i, g =>
    if !k.led_valid i then (-EINVAL, g)
    else if k.led_request i ≠ 0 then (k.led_request i, g)
    else if k.led_dir i ≠ 0 then (k.led_dir i, g)
    else request_led_loop k n (i + 1) (gpio_set_value g (led_gpios.getD i 0) 0)

/-- The function `request_led_gpios`. -/
def request_led_gpios (k : InitEnv) (g : Nat → Int) : Int × (Nat → Int) :=
  if led_gpios_num ≠ 8 then (-EINVAL, g)
  else request_led_loop k 8 0 g

/-- The function `free_led_gpios`: every LED pin is driven low. -/
def free_led_gpios (g : Nat → Int) : Nat → Int :=
  (List.range 8).foldl (fun g i => gpio_set_value g (led_gpios.getD i 0) 0) g

/-- The function `dht_init`: the return value and the globals afterwards. -/
def dht_init (k : InitEnv) (s : State) : Int × State :=
  if !k.dht_valid then (-EINVAL, s)
  else if k.dht_request ≠ 0 then (k.dht_request, s)
  else
    let (ret, g) := request_led_gpios k s.gpio
    let s1 : State := { s with gpio := g }
    if ret ≠ 0 then (ret, s1)
    else
      let err_gpio : State := { s1 with gpio := free_led_gpios g }
      if k.alloc_ret < 0 then (k.alloc_ret, err_gpio)
      else if k.cdev_ret < 0 then (k.cdev_ret, err_gpio)
      else if k.class_err ≠ 0 then (-(k.class_err : Int), err_gpio)
      else if !k.device_ok then (-ENOMEM, err_gpio)
      else
        (0, { s1 with
          g_cache := { temp := 0, humi := 0, ok := 0 }
          g_last_sample_j := k.jiffies - msecs_to_jiffies 2000 })

/-- Runs of `poll_work_fn`, one per environment. -/
def poll_cycles : List Env → State → Option State
  | [], s => some s
  | e :: es, s =>
    match poll_work_fn e s with
    | none => none
    | some s1 => poll_cycles es s1

/-- Every sample of the run returns an error. -/
def all_fail : List Env → State → Bool
  | [], _ => true
  | e :: es, s =>
    match dht11_sample e s 0 0, poll_work_fn e s with
    | some r, some s1 => decide (r.ret ≠ 0) && all_fail es s1
    | _, _ => false

/-! ## Test inputs -/

/-- The eight bits of a byte, most significant first. -/
def bits_of_byte (b : Nat) : List Int :=
  (List.range 8).map (fun j => ((b / 2 ^ (7 - j) % 2 : Nat) : Int))

/-- A line on which the sensor answers the handshake at once and sends `frame`: every
wait sees its level at the first read. -/
def line_of_frame (frame : List Nat) : Nat → Int :=
  fun k => (([0, 1, 0] : List Int) ++
    (frame.flatMap bits_of_byte).flatMap (fun c => [1, c, 0])).getD k 0

/-- A state with an empty cache and all outputs low. -/
def state0 : State :=
  { g_cache := { temp := 0, humi := 0, ok := 0 }, g_last_sample_j := -2000, gpio := fun _ => 0 }

/-- A state holding a valid reading. -/
def state_valid : State :=
  { g_cache := { temp := 23, humi := 45, ok := 1 }, g_last_sample_j := 0, gpio := fun _ => 0 }

/-- An environment in which both direction changes succeed and the sensor sends `frame`. -/
def env_of_frame (frame : List Nat) : Env :=
  { now := 5000, dir_out_ret := 0, dir_in_ret := 0, line := line_of_frame frame, elapsed := 5 }

/-- An environment in which the line stays high: the first handshake wait times out. -/
def env_silent : Env :=
  { now := 5000, dir_out_ret := 0, dir_in_ret := 0, line := fun _ => 1, elapsed := 5 }

/-- An environment in which `gpio_direction_output` fails with `-EINVAL`. -/
def env_dir_error : Env :=
  { now := 5000, dir_out_ret := -22, dir_in_ret := 0, line := fun _ => 1, elapsed := 0 }

/-- An initialisation in which every kernel call succeeds. -/
def init_ok : InitEnv :=
  { jiffies := 10000, dht_valid := true, dht_request := 0, led_valid := fun _ => true,
    led_request := fun _ => 0, led_dir := fun _ => 0, alloc_ret := 0, cdev_ret := 0,
    class_err := 0, device_ok := true }

/-- The globals after the start pulse of `dht11_sample`. -/
def after_start (s : State) : State :=
  { s with gpio := gpio_set_value (gpio_set_value s.gpio dht_gpio 0) dht_gpio 1 }

/-- The line the textual query promises for a snapshot: `T=<temp>C H=<humi>%` and a
newline, both numbers in unsigned decimal, when the snapshot is valid, else the fixed
error line. -/
def spec_line (d : dht11_data) : String :=
  if d.ok ≠ 0 then "T=" ++ Nat.repr d.temp ++ "C H=" ++ Nat.repr d.humi ++ "%\n"
  else "DHT11 read error\n"

/-- The state right after a successful `dht_init`. -/
def state_init : State := (dht_init init_ok state0).2

/-- The ON/OFF pattern of the eight LED bar outputs. -/
def led_pattern (gpio : Nat → Int) : List Bool := (List.range 8).map (led_on gpio)

/-- The pattern the LED bar shows for a level: output `i` is ON when `i < level`. -/
def level_pattern (level : Int) : List Bool :=
  (List.range 8).map (fun (i : Nat) => decide ((i : Int) < level))

/-- The state after one sample cycle; the state itself when the cycle does not return. -/
def after_cycle (env : Env) (s : State) : State := (poll_work_fn env s).getD s

/-- A line that reads high `n` times and low from then on. -/
def line_high_then_low (n : Nat) : Nat → Int := fun k => if k < n then 1 else 0

/-- An environment in which the sensor answers the handshake, sends eight zero bits and one
more rising edge, and then holds the line high: the falling-edge wait of the ninth bit
times out. -/
def env_stuck_high : Env :=
  { now := 5000, dir_out_ret := 0, dir_in_ret := 0,
    line := fun k => (([0, 1, 0] : List Int) ++
      (bits_of_byte 0).flatMap (fun c => [1, c, 0])).getD k 1,
    elapsed := 5 }

/-- Value of `jiffies` at the end of a transaction that went through the capture: the rate
gate's sleep, the 20 ms start pulse and the ticks of the capture have passed. -/
def sample_end (env : Env) (s : State) : Int :=
  env.now + rate_gate env.now s.g_last_sample_j + 20 + env.elapsed

/-- Value of `jiffies` when the start pulse of a transaction begins: right after the rate
gate. -/
def start_pulse (env : Env) (s : State) : Int :=
  env.now + rate_gate env.now s.g_last_sample_j

/-- Value of `jiffies` when `dht11_sample` returns. -/
def cycle_end (env : Env) (s : State) : Int :=
  if env.dir_out_ret ≠ 0 then start_pulse env s
  else if env.dir_in_ret ≠ 0 then start_pulse env s + 20
  else sample_end env s

/-- A successful sample that begins at time `now`. -/
def env_good_at (now : Int) : Env := { env_of_frame [45, 0, 23, 0, 68] with now := now }

/-- A sample that begins at time `now` and times out in the handshake. -/
def env_silent_at (now : Int) : Env := { env_silent with now := now }

/-- The bit that the capture loop takes from the line read with index `p`:
`gpio_get_value(dht_gpio) ? 1 : 0`. -/
def level_bit (line : Nat → Int) (p : Nat) : Nat := if line p ≠ 0 then 1 else 0

/-- The read indices at which the bit loop of `dht11_sample` samples the line, over `n`
iterations that begin at read index `pos`; `none` when one of the waits times out. -/
def sample_points (line : Nat → Int) : Nat → Nat → Option (List Nat)
  | 0, _ => some []
  | n + 1, pos =>
    match wait_pin_status line 1 120 pos with
    | none => none
    | some (r1, p1) =>
      if r1 < 0 then none
      else
        match wait_pin_status line 0 150 (p1 + 1) with
        | none => none
        | some (r2, p2) =>
          if r2 < 0 then none
          else (sample_points line n p2).map (fun ps => p1 :: ps)

/-- Byte `k` of a frame assembled MSB-first from the bit sequence `c`: the sum over `j` in
`0..7` of `c (8k + j) * 2^(7 - j)`. -/
def frame_byte (c : Nat → Nat) (k : Nat) : Nat :=
  ((List.range 8).map (fun j => c (8 * k + j) * 2 ^ (7 - j))).sum

/-- One step of the capture loop on a byte: shift left within eight bits, then set the low
bit. -/
def shift_in (d bit : Nat) : Nat := (d <<< 1) % 256 ||| (bit &&& 1)

/-- The frame after the bit with index `i` has been shifted into it. -/
def feed (data : List Nat) (i bit : Nat) : List Nat :=
  let data1 := data.set (i / 8) ((data.getD (i / 8) 0 <<< 1) % 256)
  data1.set (i / 8) (data1.getD (i / 8) 0 ||| (bit &&& 1))

/-- The frame after `n` bits of the sequence `c`, from index `i` on, have been shifted
into it. -/
def feed_seq (c : Nat → Nat) : Nat → Nat → List Nat → List Nat
  | 0, _, data => data
  | n + 1, i, data => feed_seq c n (i + 1) (feed data i (c i))

/-! ## Interleaving of a sample cycle with readers -/

/-- The threads that use `dht_lock`: the work item `poll_work_fn` and the readers
(`dht_read` or `dht_ioctl` calls), numbered. -/
inductive Thread where
  | writer : Thread
  | reader : Nat → Thread
deriving DecidableEq

/-- The shared memory and the threads' progress: the cache, the owner of `dht_lock`, the
position of `poll_work_fn`, the position of every reader and every reader's local `d`. -/
structure Sys where
  g_cache : dht11_data
  lock : Option Thread
  wpc : Nat
  rpc : Nat → Nat
  d : Nat → dht11_data

/-- What `poll_work_fn` learns from `dht11_sample`: the temperature and humidity on
success, `none` on failure. -/
def sample_outcome (env : Env) (s : State) : Option (Nat × Nat) :=
  match dht11_sample env s 0 0 with
  | some r => if r.ret = 0 then some (r.out_temp, r.out_humi) else none
  | none => none

/-- One step of `poll_work_fn`, by position: 0 `mutex_lock` (waits while the lock is
taken), 1 `dht11_sample`, 2 `g_cache.temp = t` on success or `g_cache.ok = 0` on failure,
3 `g_cache.humi = h`, 4 `g_cache.ok = 1`, 5 `mutex_unlock`, 6 done. -/
def writer_step (res : Option (Nat × Nat)) (sys : Sys) : Sys :=
  match sys.wpc with
  | 0 => if sys.lock = none then { sys with lock := some Thread.writer, wpc := 1 } else sys
  | 1 => { sys with wpc := 2 }
  | 2 =>
    match res with
    | some (t, _) => { sys with g_cache := { sys.g_cache with temp := t }, wpc := 3 }
    | none => { sys with g_cache := { sys.g_cache with ok := 0 }, wpc := 5 }
  | 3 =>
    match res with
    | some (_, h) => { sys with g_cache := { sys.g_cache with humi := h }, wpc := 4 }
    | none => sys
  | 4 => { sys with g_cache := { sys.g_cache with ok := 1 }, wpc := 5 }
  | 5 => { sys with lock := none, wpc := 6 }
  | _ => sys

/-- One step of reader `i` (the locked copy in `dht_read` and `dht_ioctl`), by position:
0 `mutex_lock` (waits while the lock is taken), 1 to 3 the copy `d = g_cache` field by
field, 4 `mutex_unlock`, 5 done. -/
def reader_step (i : Nat) (sys : Sys) : Sys :=
  match sys.rpc i with
  | 0 =>
    if sys.lock = none then
      { sys with lock := some (Thread.reader i), rpc := Function.update sys.rpc i 1 }
    else sys
  | 1 =>
    { sys with
      d := Function.update sys.d i { sys.d i with temp := sys.g_cache.temp }
      rpc := Function.update sys.rpc i 2 }
  | 2 =>
    { sys with
      d := Function.update sys.d i { sys.d i with humi := sys.g_cache.humi }
      rpc := Function.update sys.rpc i 3 }
  | 3 =>
    { sys with
      d := Function.update sys.d i { sys.d i with ok := sys.g_cache.ok }
      rpc := Function.update sys.rpc i 4 }
  | 4 => { sys with lock := none, rpc := Function.update sys.rpc i 5 }
  | _ => sys

/-- One step of the thread the scheduler picks. -/
def sys_step (res : Option (Nat × Nat)) (sys : Sys) (th : Thread) : Sys :=
  match th with
  | Thread.writer => writer_step res sys
  | Thread.reader i => reader_step i sys

/-- The system after the schedule `sched`: an interleaving of the threads' steps. -/
def sys_run (res : Option (Nat × Nat)) (sched : List Thread) (sys : Sys) : Sys :=
  sched.foldl (sys_step res) sys

/-- The system before any thread has moved; `d0` holds the readers' uninitialised
locals. -/
def sys_init (c0 : dht11_data) (d0 : Nat → dht11_data) : Sys :=
  { g_cache := c0, lock := none, wpc := 0, rpc := fun _ => 0, d := d0 }

/-- The cache while `poll_work_fn` is at position `wpc`, from the cache `c0` before the
cycle. -/
def cache_at (c0 : dht11_data) (res : Option (Nat × Nat)) (wpc : Nat) : dht11_data :=
  match res with
  | some (t, h) =>
    if wpc ≤ 2 then c0
    else if wpc = 3 then { c0 with temp := t }
    else if wpc = 4 then { temp := t, humi := h, ok := c0.ok }
    else { temp := t, humi := h, ok := 1 }
  | none => if wpc ≤ 2 then c0 else { c0 with ok := 0 }

/-- What holds in every state of every interleaving. -/
def SysInv (c0 : dht11_data) (res : Option (Nat × Nat)) (sys : Sys) : Prop :=
  sys.wpc ≤ 6 ∧
  (res = none → sys.wpc ≠ 3 ∧ sys.wpc ≠ 4) ∧
  sys.g_cache = cache_at c0 res sys.wpc ∧
  ((1 ≤ sys.wpc ∧ sys.wpc ≤ 5) ↔ sys.lock = some Thread.writer) ∧
  ∀ i, sys.rpc i ≤ 5 ∧
    ((1 ≤ sys.rpc i ∧ sys.rpc i ≤ 4) ↔ sys.lock = some (Thread.reader i)) ∧
    (2 ≤ sys.rpc i → sys.rpc i ≤ 4 → (sys.d i).temp = sys.g_cache.temp) ∧
    (3 ≤ sys.rpc i → sys.rpc i ≤ 4 → (sys.d i).humi = sys.g_cache.humi) ∧
    (sys.rpc i = 4 → (sys.d i).ok = sys.g_cache.ok) ∧
    (sys.rpc i = 5 → sys.d i = c0 ∨ sys.d i = cache_at c0 res 6)

/-- A schedule: reader 0 takes the lock first and copies while the work item waits; then
the work item runs, with reader 1 trying to get in after its first store; reader 1 copies
after the work item has released the lock. -/
def sched_demo : List Thread :=
  [Thread.reader 0, Thread.writer, Thread.reader 0, Thread.reader 0, Thread.reader 0,
    Thread.reader 0, Thread.writer, Thread.writer, Thread.writer, Thread.reader 1,
    Thread.reader 1, Thread.writer, Thread.writer, Thread.writer, Thread.reader 1,
    Thread.reader 1, Thread.reader 1, Thread.reader 1, Thread.reader 1]

/-- A wait for `level` with bound `t` that begins at read index `pos`, seen on the line
alone: `some k` when the read with index `pos + k`, `k ≤ t`, is the first that equals
`level`; `none` when the first `t + 1` reads all differ from it, so that the wait exceeds
its bound. -/
def wait_outcome (line : Nat → Int) (level : Int) : Nat → Nat → Option Nat
  | 0, pos => if line pos = level then some 0 else none
  | t + 1, pos =>
    if line pos = level then some 0
    else (wait_outcome line level t (pos + 1)).map (fun k => k + 1)

/-- One of the per-bit waits of `n` bits that begin at read index `pos` exceeds its bound:
the wait for the rising edge (bound 120) or, one sample read later, the wait for the
falling edge (bound 150). -/
def bits_time_out (line : Nat → Int) : Nat → Nat → Bool
  | 0, _ => false
  | n + 1, pos =>
    match wait_outcome line 1 120 pos with
    | none => true
    | some k1 =>
      match wait_outcome line 0 150 (pos + k1 + 1 + 1) with
      | none => true
      | some k2 => bits_time_out line n (pos + k1 + 1 + 1 + k2 + 1)

/-- One of the waits of a transaction exceeds its bound on this line: one of the three
handshake waits (low, high, low, bound 200 each) or one of the per-bit waits of the forty
bits. -/
def line_times_out (line : Nat → Int) : Bool :=
  match wait_outcome line 0 200 0 with
  | none => true
  | some k1 =>
    match wait_outcome line 1 200 (k1 + 1) with
    | none => true
    | some k2 =>
      match wait_outcome line 0 200 (k1 + 1 + k2 + 1) with
      | none => true
      | some k3 => bits_time_out line 40 (k1 + 1 + k2 + 1 + k3 + 1)

/-- An environment in which the line stays low: the sensor never releases it, and the
second handshake wait, for high, times out. -/
def env_stuck_low : Env :=
  { now := 5000, dir_out_ret := 0, dir_in_ret := 0, line := fun _ => 0, elapsed := 5 }

end Dht11

/-!
# DS1302 real-time clock driver (`ds1302_rpi_rtc.c`)

The chip is a store of byte registers: the read address `reg | 1` returns the byte last
written to the write address `reg`.  The three-wire transfer of the bytes
(`ds1302_tx_u8`, `ds1302_rx_u8`) is not part of the model.
-/

namespace Ds1302

/-- Value of the kernel errno `ENODEV`. -/
def ENODEV : Int := 19

/-- Write address of the seconds register. -/
def DS1302_REG_SECONDS : Nat := 0x80
/-- Write address of the minutes register. -/
def DS1302_REG_MINUTES : Nat := 0x82
/-- Write address of the hours register. -/
def DS1302_REG_HOURS : Nat := 0x84
/-- Write address of the date register. -/
def DS1302_REG_DATE : Nat := 0x86
/-- Write address of the month register. -/
def DS1302_REG_MONTH : Nat := 0x88
/-- Write address of the day-of-week register. -/
def DS1302_REG_DAY : Nat := 0x8A
/-- Write address of the year register. -/
def DS1302_REG_YEAR : Nat := 0x8C
/-- Write address of the write-protect register. -/
def DS1302_REG_WP : Nat := 0x8E

/-- The fields of `struct rtc_time` that the driver reads and writes. -/
structure rtc_time where
  tm_sec : Int
  tm_min : Int
  tm_hour : Int
  tm_mday : Int
  tm_mon : Int
  tm_wday : Int
  tm_year : Int
deriving DecidableEq, Repr

/-- The kernel helper `bin2bcd`: `((val / 10) << 4) + val % 10`, as an unsigned char. -/
def bin2bcd (val : Nat) : Nat := (((val / 10) <<< 4) + val % 10) % 256

/-- The kernel helper `bcd2bin`: `(val & 0x0f) + (val >> 4) * 10`. -/
def bcd2bin (val : Nat) : Nat := (val &&& 0x0f) + (val >>> 4) * 10

/-- The function `ds1302_write_reg_raw(reg_even, raw_bcd)` on the register store. -/
def ds1302_write_reg_raw (regs : Nat → Nat) (reg_even raw_bcd : Nat) : Nat → Nat :=
  Function.update regs (reg_even &&& 0xFE) raw_bcd

/-- The function `ds1302_read_reg_raw(reg_even)` on the register store. -/
def ds1302_read_reg_raw (regs : Nat → Nat) (reg_even : Nat) : Nat :=
  regs (reg_even &&& 0xFE)

/-- The function `ds1302_write_protect(enable)`. -/
def ds1302_write_protect (regs : Nat → Nat) (enable : Bool) : Nat → Nat :=
  ds1302_write_reg_raw regs DS1302_REG_WP (if enable then 0x80 else 0x00)

/-- The function `ds1302_rtc_read_time`: the return value, the time read and the register
store afterwards; `have_priv` tells whether the driver data is found. -/
def ds1302_rtc_read_time (have_priv : Bool) (regs : Nat → Nat) (tm : rtc_time) :
    Int × rtc_time × (Nat → Nat) :=
  if !have_priv then (-ENODEV, tm, regs)
  else
    let raw_sec0 := ds1302_read_reg_raw regs DS1302_REG_SECONDS
    let (raw_sec, regs1) :=
      if raw_sec0 &&& 0x80 ≠ 0 then
        let r1 := ds1302_write_protect regs false
        let r2 := ds1302_write_reg_raw r1 DS1302_REG_SECONDS (raw_sec0 &&& 0x7F)
        let r3 := ds1302_write_protect r2 true
        (raw_sec0 &&& 0x7F, r3)
      else (raw_sec0, regs)
    let sec := raw_sec &&& 0x7F
    let min := ds1302_read_reg_raw regs1 DS1302_REG_MINUTES
    let hour := ds1302_read_reg_raw regs1 DS1302_REG_HOURS
    let mday := ds1302_read_reg_raw regs1 DS1302_REG_DATE
    let mon := ds1302_read_reg_raw regs1 DS1302_REG_MONTH
    let wday := ds1302_read_reg_raw regs1 DS1302_REG_DAY
    let year := ds1302_read_reg_raw regs1 DS1302_REG_YEAR
    let tm_hour : Int :=
      if hour &&& 0x80 ≠ 0 then
        let h : Int := bcd2bin (hour &&& 0x1F)
        let pm : Bool := decide (hour &&& 0x20 ≠ 0)
        let h : Int := if pm ∧ h < 12 then h + 12 else h
        let h : Int := if ¬ pm ∧ h = 12 then 0 else h
        h
      else bcd2bin (hour &&& 0x3F)
    (0,
      { tm_sec := bcd2bin sec
        tm_min := bcd2bin min
        tm_hour := tm_hour
        tm_mday := bcd2bin mday
        tm_mon := (bcd2bin mon : Int) - 1
        tm_wday := ((bcd2bin wday + 6) % 7 : Nat)
        tm_year := 100 + (bcd2bin year : Int) },
      regs1)

/-- The function `ds1302_rtc_set_time`: the return value and the register store
afterwards; `have_priv` tells whether the driver data is found. -/
def ds1302_rtc_set_time (have_priv : Bool) (regs : Nat → Nat) (tm : rtc_time) :
    Int × (Nat → Nat) :=
  if !have_priv then (-ENODEV, regs)
  else
    let s := tm.tm_sec
    let s := if s < 0 then 0 else s
    let s := if s > 59 then 59 else s
    let mi := tm.tm_min
    let mi := if mi < 0 then 0 else mi
    let mi := if mi > 59 then 59 else mi
    let h := tm.tm_hour
    let h := if h < 0 then 0 else h
    let h := if h > 23 then 23 else h
    let d := tm.tm_mday
    let d := if d < 1 then 1 else d
    let d := if d > 31 then 31 else d
    let mon0 := tm.tm_mon
    let mon0 := if mon0 ≥ 1 ∧ mon0 ≤ 12 then mon0 - 1 else mon0
    let mon0 := if mon0 < 0 then 0 else mon0
    let mon0 := if mon0 > 11 then 11 else mon0
    let w0 := tm.tm_wday
    let w0 := if w0 ≥ 1 ∧ w0 ≤ 7 then w0 - 1 else w0
    let w0 := if w0 < 0 then 0 else w0
    let w0 := if w0 > 6 then 6 else w0
    let y := tm.tm_year
    let y := if y > 1900 then y - 1900 else y
    let y := if y ≥ 100 then y - 100 else y
    let y := if y < 0 then 0 else y
    let y := if y > 99 then y % 100 else y
    let sec_run := bin2bcd s.toNat &&& 0x7F
    let sec_halt := sec_run ||| 0x80
    let min := bin2bcd mi.toNat
    let hour := bin2bcd h.toNat
    let mday := bin2bcd d.toNat
    let mon := bin2bcd (mon0 + 1).toNat
    let wday := bin2bcd (w0 + 1).toNat
    let year := bin2bcd y.toNat
    let r := ds1302_write_protect regs false
    let r := ds1302_write_reg_raw r DS1302_REG_SECONDS sec_halt
    let r := ds1302_write_reg_raw r DS1302_REG_MINUTES min
    let r := ds1302_write_reg_raw r DS1302_REG_HOURS hour
    let r := ds1302_write_reg_raw r DS1302_REG_DATE mday
    let r := ds1302_write_reg_raw r DS1302_REG_MONTH mon
    let r := ds1302_write_reg_raw r DS1302_REG_DAY wday
    let r := ds1302_write_reg_raw r DS1302_REG_YEAR year
    let r := ds1302_write_reg_raw r DS1302_REG_SECONDS sec_run
    let r := ds1302_write_protect r true
    (0, r)

/-- The time read back by `ds1302_rtc_read_time` after `ds1302_rtc_set_time` stored `tm`,
from an empty register store. -/
def read_after_set (tm : rtc_time) : rtc_time :=
  (ds1302_rtc_read_time true (ds1302_rtc_set_time true (fun _ => 0) tm).2
    ⟨0, 0, 0, 0, 0, 0, 0⟩).2.1

/-- The time 10:15:30 on Wednesday 15 June 2025 as the kernel passes it: `tm_mon = 5`,
`tm_wday = 3`, `tm_year = 125`. -/
def tm_june : rtc_time :=
  { tm_sec := 30, tm_min := 15, tm_hour := 10, tm_mday := 15, tm_mon := 5, tm_wday := 3,
    tm_year := 125 }

end Ds1302

/-!
# Rotary encoder driver (`rotary_device_driver.c`): the event queue

The calls of `q_push` and `q_pop` are taken one after the other.
-/

namespace Rotary

/-- Number of slots of the ring buffer: `#define QSIZE 32`. -/
def QSIZE : Int := 32

/-- The record `struct rot_event { int type; int value; }`. -/
structure rot_event where
  type : Int
  value : Int
deriving DecidableEq, Repr

/-- The ring buffer: the array `q[QSIZE]` and the indices `qh` (next slot to write) and
`qt` (next slot to read). -/
structure Queue where
  q : Nat → rot_event
  qh : Int
  qt : Int

/-- The ring buffer of the freshly loaded module: `qh = qt = 0`. -/
def queue_init (q : Nat → rot_event) : Queue := { q := q, qh := 0, qt := 0 }

/-- The function `q_empty`. -/
def q_empty (s : Queue) : Bool := decide (s.qh = s.qt)

/-- The function `q_full`; `Int.tmod` is the remainder of C. -/
def q_full (s : Queue) : Bool := decide (Int.tmod (s.qh + 1) QSIZE = s.qt)

/-- The function `q_push(type, value)`. -/
def q_push (s : Queue) (type value : Int) : Queue :=
  if !q_full s then
    { s with
      q := Function.update s.q s.qh.toNat { type := type, value := value }
      qh := Int.tmod (s.qh + 1) QSIZE }
  else s

/-- The function `q_pop(out)`: the return value, the contents of `*out` and the ring
buffer afterwards. -/
def q_pop (s : Queue) (out : rot_event) : Int × rot_event × Queue :=
  if q_empty s then (0, out, s)
  else (1, s.q s.qt.toNat, { s with qt := Int.tmod (s.qt + 1) QSIZE })

/-- A call of `q_push` or of `q_pop`. -/
inductive Op where
  | push : Int → Int → Op
  | pop : Op
deriving DecidableEq

/-- The ring buffer after a sequence of calls, and what the calls of `q_pop` returned: the
return value and, when it is 1, the event stored through `out`. -/
def run_ops : List Op → Queue → Queue × List (Int × Option rot_event)
  | [], s => (s, [])
  | Op.push t v :: ops, s => run_ops ops (q_push s t v)
  | Op.pop :: ops, s =>
    let r := q_pop s { type := 0, value := 0 }
    let rest := run_ops ops r.2.2
    (rest.1, (r.1, if r.1 = 1 then some r.2.1 else none) :: rest.2)

/-- The events that are pending in the ring buffer, oldest first: the slots from `qt` up
to `qh`, cyclically. -/
def pending (s : Queue) : List rot_event :=
  (List.range ((s.qh - s.qt) % 32).toNat).map
    (fun (k : Nat) => s.q ((s.qt + (k : Int)) % 32).toNat)

/-- A bounded FIFO queue of capacity 31, `push`: the event is appended unless 31 events
are pending, then it is dropped. -/
def fifo_push (l : List rot_event) (e : rot_event) : List rot_event :=
  if l.length < 31 then l ++ [e] else l

/-- A bounded FIFO queue, `pop`: 0 when nothing is pending, else 1 with the oldest
event, which is removed. -/
def fifo_pop (l : List rot_event) : (Int × Option rot_event) × List rot_event :=
  match l with
  | [] => ((0, none), [])
  | e :: rest => ((1, some e), rest)

/-- The bounded FIFO queue after a sequence of calls, and what the pops returned. -/
def fifo_run : List Op → List rot_event → List rot_event × List (Int × Option rot_event)
  | [], l => (l, [])
  | Op.push t v :: ops, l => fifo_run ops (fifo_push l { type := t, value := v })
  | Op.pop :: ops, l =>
    let r := fifo_pop l
    let rest := fifo_run ops r.2
    (rest.1, r.1 :: rest.2)

/-- The indices are within the array. -/
def in_range (s : Queue) : Prop := 0 ≤ s.qh ∧ s.qh < 32 ∧ 0 ≤ s.qt ∧ s.qt < 32

/-- An array of cleared slots. -/
def q_zero : Nat → rot_event := fun _ => { type := 0, value := 0 }

/-- Two rotations and a key press with pops in between, and one pop too many. -/
def ops_demo : List Op :=
  [Op.push 0 1, Op.push 0 (-1), Op.pop, Op.push 1 1, Op.pop, Op.pop, Op.pop]

/-- Three calls that wrap the indices around the array, then 31 pushes that fill the ring
buffer. -/
def ops_fill : List Op :=
  [Op.push 0 1, Op.pop, Op.pop] ++ (List.range 31).map (fun k => Op.push 0 (k : Int))

end Rotary

/-!
# User-space reader of the sensor (`env-oled.c`)

A C string is the list of its characters; the text ends at the end of the list or at a
NUL character.
-/

namespace EnvOled

/-- The largest `long` (64-bit). -/
def LONG_MAX : Int := 2 ^ 63 - 1

/-- The smallest `long` (64-bit). -/
def LONG_MIN : Int := -(2 ^ 63)

/-- The test `c >= '0' && c <= '9'`. -/
def is_digit (c : Char) : Bool := decide ('0' ≤ c ∧ c ≤ '9')

/-- The digits that `strtol` consumes: the value of the longest run of decimal digits, on
top of `acc`, and the text after it. -/
def strtol_digits : List Char → Nat → Nat × List Char
  | [], acc => (acc, [])
  | c :: rest, acc =>
    if is_digit c then strtol_digits rest (acc * 10 + (c.toNat - 48))
    else (acc, c :: rest)

/-- The library function `strtol(p, &end, 10)` on a text that begins with a digit or with
a minus sign (the texts `parse_two_ints` hands to it): the value, clamped to the range of
`long`, and the text from `end` on; without a digit nothing is consumed. -/
def strtol (p : List Char) : Int × List Char :=
  match p with
  | [] => (0, p)
  | c :: rest =>
    if c = '-' then
      match rest with
      | [] => (0, p)
      | d :: _ =>
        if is_digit d then
          let r := strtol_digits rest 0
          (max LONG_MIN (-(r.1 : Int)), r.2)
        else (0, p)
    else if is_digit c then
      let r := strtol_digits p 0
      (min LONG_MAX (r.1 : Int), r.2)
    else (0, p)

/-- The conversion `(int)x` of a `long` to a 32-bit `int`. -/
def to_int (x : Int) : Int := (x + 2 ^ 31) % 2 ^ 32 - 2 ^ 31

/-- The loop of `parse_two_ints` from the text at `p`, with `cnt` numbers found so far in
`v0` and `v1`; the text ends at its end or at a NUL character.  Returns `cnt` and `v`, or
`none` when the fuel runs out. -/
def parse_loop : Nat → List Char → Nat → Int → Int → Option (Nat × Int × Int)
  | 0, _, _, _, _ => none
  | fuel + 1, p, cnt, v0, v1 =>
    match p with
    | [] => some (cnt, v0, v1)
    | c :: rest =>
      if c.toNat = 0 ∨ ¬ cnt < 2 then some (cnt, v0, v1)
      else if is_digit c ∨ (c = '-' ∧ (rest.head?.map is_digit).getD false = true) then
        let r := strtol (c :: rest)
        if r.2.length ≠ (c :: rest).length then
          if cnt = 0 then parse_loop fuel r.2 (cnt + 1) (to_int r.1) v1
          else parse_loop fuel r.2 (cnt + 1) v0 (to_int r.1)
        else parse_loop fuel rest cnt v0 v1
      else parse_loop fuel rest cnt v0 v1

/-- The function `parse_two_ints(s, a, b)`: the return value and the contents of `*a` and
`*b`. -/
def parse_two_ints (s : List Char) (a b : Int) : Option (Int × Int × Int) :=
  match parse_loop (s.length + 1) s 0 0 0 with
  | none => none
  | some (cnt, v0, v1) => if cnt = 2 then some (0, v0, v1) else some (-1, a, b)

/-- The function `read_file_once("/dev/dht11", buf, cap)`: the return value and the text
left in `buf`.  `open_ok` tells whether `open` succeeds; the `read` is a `dht_read` at file
offset 0 into the caller's own buffer. -/
def read_file_once (open_ok : Bool) (s : Dht11.State) (cap : Nat) : Int × List Char :=
  if !open_ok then (-1, [])
  else
    let r := Dht11.dht_read s true (cap - 1) 0
    if r.ret ≤ 0 then (-1, [])
    else (r.ret, (r.out.getD "").data)

/-- The function `dht_read_now(temp, humi)`: the return value and the contents of `*temp`
and `*humi`. -/
def dht_read_now (open_ok : Bool) (s : Dht11.State) (temp humi : Int) :
    Option (Int × Int × Int) :=
  let f := read_file_once open_ok s 96
  if f.1 < 0 then some (-1, temp, humi)
  else
    match parse_two_ints f.2 0 0 with
    | none => none
    | some (ret, a, b) => if ret = 0 then some (0, a, b) else some (-1, temp, humi)

/-- The value of a run of decimal digits, on top of `acc`. -/
def digits_value (ds : List Char) (acc : Nat) : Nat :=
  ds.foldl (fun a c => a * 10 + (c.toNat - 48)) acc

end EnvOled

/-!
# Properties of the DHT11 driver
-/

namespace Dht11

/-! ## General facts about the sampling path -/

theorem wait_loop_isSome (line : Nat → Int) (level time_us : Int) :
    ∀ (fuel : Nat) (counter : Int) (pos : Nat), (time_us - counter).toNat + 1 ≤ fuel →
      ∃ r, wait_loop line level time_us fuel counter pos = some r := by
  intro fuel
  induction fuel with
  | zero => intro counter pos h; omega
  | succ n ih =>
    intro counter pos h
    unfold wait_loop
    by_cases h1 : line pos ≠ level
    · by_cases h2 : counter + 1 > time_us
      · simp [h1, h2]
      · obtain ⟨r, hr⟩ := ih (counter + 1) (pos + 1) (by omega)
        exact ⟨r, by simp [h1, h2, hr]⟩
    · simp [h1]

theorem wait_pin_status_isSome (line : Nat → Int) (level time_us : Int) (pos : Nat) :
    ∃ r, wait_pin_status line level time_us pos = some r := by
  unfold wait_pin_status
  exact wait_loop_isSome line level time_us _ 0 pos (by omega)

theorem capture_bits_isSome (line : Nat → Int) :
    ∀ (n i : Nat) (ret : Int) (data : List Nat) (pos : Nat),
      ∃ r, capture_bits line n i ret data pos = some r := by
  intro n
  induction n with
  | zero => intro i ret data pos; exact ⟨_, rfl⟩
  | succ n ih =>
    intro i ret data pos
    unfold capture_bits
    obtain ⟨⟨r1, p1⟩, h1⟩ := wait_pin_status_isSome line 1 120 pos
    obtain ⟨⟨r2, p2⟩, h2⟩ := wait_pin_status_isSome line 0 150 (p1 + 1)
    simp only [h1, h2]
    by_cases hr1 : r1 < 0
    · simp [hr1]
    · by_cases hr2 : r2 < 0
      · simp [hr1, hr2]
      · simp only [hr1, hr2, if_false]
        exact ih _ _ _ _

theorem capture_isSome (line : Nat → Int) : ∃ r, capture line = some r := by
  unfold capture
  obtain ⟨⟨r1, p1⟩, h1⟩ := wait_pin_status_isSome line 0 200 0
  obtain ⟨⟨r2, p2⟩, h2⟩ := wait_pin_status_isSome line 1 200 p1
  obtain ⟨⟨r3, p3⟩, h3⟩ := wait_pin_status_isSome line 0 200 p2
  simp only [h1, h2, h3]
  split_ifs
  · exact ⟨_, rfl⟩
  · exact ⟨_, rfl⟩
  · exact ⟨_, rfl⟩
  · exact capture_bits_isSome line _ _ _ _ _

/-- The function `dht11_sample` returns on every input. -/
theorem dht11_sample_isSome (env : Env) (s : State) (t h : Nat) :
    ∃ r, dht11_sample env s t h = some r := by
  unfold dht11_sample
  obtain ⟨⟨ret, data, pos⟩, hc⟩ := capture_isSome env.line
  simp only [hc]
  split_ifs <;> exact ⟨_, rfl⟩

/-- The function `poll_work_fn` returns on every input. -/
theorem poll_work_fn_isSome (env : Env) (s : State) : ∃ s1, poll_work_fn env s = some s1 := by
  unfold poll_work_fn
  obtain ⟨r, hr⟩ := dht11_sample_isSome env s 0 0
  simp only [hr]
  split_ifs <;> exact ⟨_, rfl⟩

theorem and_0xFF (x : Nat) : x &&& 0xFF = x % 256 := by
  have h := Nat.and_pow_two_sub_one_eq_mod x 8
  norm_num at h
  exact h

/-- What `dht11_sample` does once both direction changes succeeded and the capture
ran through without timeout. -/
theorem dht11_sample_captured (env : Env) (s : State) (t h : Nat) (r : Int)
    (data : List Nat) (pos : Nat) (hout : env.dir_out_ret = 0) (hin : env.dir_in_ret = 0)
    (hcap : capture env.line = some (r, data, pos)) (hr : 0 ≤ r) :
    dht11_sample env s t h =
      if data.getD 4 0 ≠ (data.getD 0 0 + data.getD 1 0 + data.getD 2 0 + data.getD 3 0) % 256
      then some ⟨-EIO_val, t, h, after_start s, rate_gate env.now s.g_last_sample_j, pos⟩
      else some ⟨0, data.getD 2 0, data.getD 0 0,
        { after_start s with
          g_last_sample_j := env.now + rate_gate env.now s.g_last_sample_j + 20 + env.elapsed },
        rate_gate env.now s.g_last_sample_j, pos⟩ := by
  unfold dht11_sample
  have hr1 : ¬ r < 0 := by omega
  simp only [hout, hin, hcap, hr1, and_0xFF, after_start, ne_eq, not_true_eq_false, if_false]

/-- C1: a frame `[b0, b1, b2, b3, b4]` captured without timeout whose checksum is valid
makes `dht11_sample` return success with humidity `b0` and temperature `b2`, and the sample
cycle `poll_work_fn` leaves the cache equal to `{temp: b2, humi: b0, ok: 1}`. -/
theorem dht11_sample_valid_frame (env : Env) (s : State) (t h b0 b1 b2 b3 b4 : Nat) (r : Int)
    (pos : Nat) (hout : env.dir_out_ret = 0) (hin : env.dir_in_ret = 0)
    (hcap : capture env.line = some (r, [b0, b1, b2, b3, b4], pos)) (hr : 0 ≤ r)
    (hsum : b4 = (b0 + b1 + b2 + b3) % 256) :
    (dht11_sample env s t h).map (fun x => (x.ret, x.out_humi, x.out_temp)) = some (0, b0, b2) ∧
    (poll_work_fn env s).map State.g_cache = some { temp := b2, humi := b0, ok := 1 } := by
  have h1 := dht11_sample_captured env s t h r _ pos hout hin hcap hr
  have h2 := dht11_sample_captured env s 0 0 r _ pos hout hin hcap hr
  simp only [List.getD_cons_zero, List.getD_cons_succ, ne_eq, hsum.symm, not_true_eq_false,
    if_false] at h1 h2
  constructor
  · rw [h1]; rfl
  · unfold poll_work_fn
    rw [h2]; rfl

/-- C1, witness: the frame `[45, 0, 23, 0, 68]` gives temperature 23, humidity 45, valid. -/
theorem dht11_sample_valid_frame_witness :
    (env_of_frame [45, 0, 23, 0, 68]).dir_out_ret = 0 ∧
    (env_of_frame [45, 0, 23, 0, 68]).dir_in_ret = 0 ∧
    capture (env_of_frame [45, 0, 23, 0, 68]).line = some (0, [45, 0, 23, 0, 68], 123) ∧
    (0 : Int) ≤ 0 ∧ 68 = (45 + 0 + 23 + 0) % 256 ∧
    (dht11_sample (env_of_frame [45, 0, 23, 0, 68]) state0 0 0).map
      (fun x => (x.ret, x.out_humi, x.out_temp)) = some (0, 45, 23) ∧
    (poll_work_fn (env_of_frame [45, 0, 23, 0, 68]) state0).map State.g_cache =
      some { temp := 23, humi := 45, ok := 1 } :=
  ⟨rfl, rfl, by decide, by decide, by decide,
    dht11_sample_valid_frame (env_of_frame [45, 0, 23, 0, 68]) state0 0 0 45 0 23 0 68 0 123
      rfl rfl (by decide) (by decide) (by decide)⟩

/-- C2: once a frame of five bytes is fully captured, `dht11_sample` accepts it if and only
if `b4 = (b0 + b1 + b2 + b3) mod 256`; when the equality fails it returns `-EIO`, which
differs from the timeout error `-ETIMEDOUT`. -/
theorem dht11_sample_checksum (env : Env) (s : State) (t h b0 b1 b2 b3 b4 : Nat) (r : Int)
    (pos : Nat) (hout : env.dir_out_ret = 0) (hin : env.dir_in_ret = 0)
    (hcap : capture env.line = some (r, [b0, b1, b2, b3, b4], pos)) (hr : 0 ≤ r) :
    ((dht11_sample env s t h).map SampleResult.ret = some 0 ↔ b4 = (b0 + b1 + b2 + b3) % 256) ∧
    (b4 ≠ (b0 + b1 + b2 + b3) % 256 →
      (dht11_sample env s t h).map SampleResult.ret = some (-EIO_val)) ∧
    -EIO_val ≠ -ETIMEDOUT := by
  have h1 := dht11_sample_captured env s t h r _ pos hout hin hcap hr
  simp only [List.getD_cons_zero, List.getD_cons_succ, ne_eq] at h1
  refine ⟨?_, ?_, by decide⟩
  · by_cases hs : b4 = (b0 + b1 + b2 + b3) % 256
    · simp [h1, hs]
    · simp [h1, hs, EIO_val]
  · intro hs
    simp [h1, hs]

/-- C2, witness: the frame `[45, 0, 23, 0, 68]` is accepted, and its checksum byte is the
low byte of the sum. -/
theorem dht11_sample_checksum_witness :
    (env_of_frame [45, 0, 23, 0, 68]).dir_out_ret = 0 ∧
    (env_of_frame [45, 0, 23, 0, 68]).dir_in_ret = 0 ∧
    capture (env_of_frame [45, 0, 23, 0, 68]).line = some (0, [45, 0, 23, 0, 68], 123) ∧
    (0 : Int) ≤ 0 ∧
    (((dht11_sample (env_of_frame [45, 0, 23, 0, 68]) state_valid 7 9).map SampleResult.ret
        = some 0 ↔ 68 = (45 + 0 + 23 + 0) % 256) ∧
      (68 ≠ (45 + 0 + 23 + 0) % 256 →
        (dht11_sample (env_of_frame [45, 0, 23, 0, 68]) state_valid 7 9).map SampleResult.ret
          = some (-EIO_val)) ∧
      -EIO_val ≠ -ETIMEDOUT) :=
  ⟨rfl, rfl, by decide, by decide,
    dht11_sample_checksum (env_of_frame [45, 0, 23, 0, 68]) state_valid 7 9 45 0 23 0 68 0 123
      rfl rfl (by decide) (by decide)⟩

set_option maxRecDepth 100000 in
theorem repr_length_u8 : ∀ t < 256, (Nat.repr t).length ≤ 3 := by decide

theorem scnprintf_short (size : Nat) (text : String) (h : text.length < size) :
    scnprintf size text = text := by
  unfold scnprintf
  have h1 : text.data.length ≤ size - 1 := by
    have : text.data.length = text.length := rfl
    omega
  rw [List.take_of_length_le h1]

theorem spec_line_length (d : dht11_data) (ht : d.temp < 256) (hh : d.humi < 256) :
    (spec_line d).length ≤ 17 := by
  unfold spec_line
  have h1 := repr_length_u8 d.temp ht
  have h2 := repr_length_u8 d.humi hh
  split_ifs
  · simp only [String.length_append]
    have e1 : "T=".length = 2 := by decide
    have e2 : "C H=".length = 4 := by decide
    have e3 : "%\n".length = 2 := by decide
    omega
  · decide

theorem dht_read_msg (s : State) (ht : s.g_cache.temp < 256) (hh : s.g_cache.humi < 256)
    (copy_ok : Bool) (len : Nat) :
    dht_read s copy_ok len 0 =
      if len < (spec_line s.g_cache).length then ⟨-EINVAL, none, 0⟩
      else if !copy_ok then ⟨-EFAULT, none, 0⟩
      else ⟨(spec_line s.g_cache).length, some (spec_line s.g_cache),
        0 + (spec_line s.g_cache).length⟩ := by
  have hl := spec_line_length s.g_cache ht hh
  have hm : (if s.g_cache.ok ≠ 0 then
        scnprintf 64 ("T=" ++ Nat.repr s.g_cache.temp ++ "C H=" ++ Nat.repr s.g_cache.humi ++ "%\n")
      else scnprintf 64 "DHT11 read error\n") = spec_line s.g_cache := by
    unfold spec_line at hl ⊢
    split_ifs with h0
    · rw [if_pos h0] at hl
      exact scnprintf_short _ _ (by omega)
    · decide
  unfold dht_read
  simp only [hm, lt_self_iff_false, if_false, gt_iff_lt]

theorem dht_init_cache (k : InitEnv) (s0 s : State) (h : dht_init k s0 = (0, s)) :
    s.g_cache = { temp := 0, humi := 0, ok := 0 } ∧
    s.g_last_sample_j = k.jiffies - 2000 := by
  rcases hrg : request_led_gpios k s0.gpio with ⟨ret, g⟩
  by_cases h1 : (!k.dht_valid) = true
  · simp [dht_init, h1, EINVAL] at h
  by_cases h2 : k.dht_request ≠ 0
  · simp [dht_init, h1, h2] at h
  by_cases h3 : ret ≠ 0
  · simp [dht_init, h1, h2, hrg, h3] at h
  by_cases h4 : k.alloc_ret < 0
  · simp [dht_init, h1, h2, hrg, h3, h4] at h
    omega
  by_cases h5 : k.cdev_ret < 0
  · simp [dht_init, h1, h2, hrg, h3, h4, h5] at h
    omega
  by_cases h6 : k.class_err ≠ 0
  · simp [dht_init, h1, h2, hrg, h3, h4, h5, h6] at h
  by_cases h7 : (!k.device_ok) = true
  · simp [dht_init, h1, h2, hrg, h3, h4, h5, h6, h7, ENOMEM] at h
  · simp [dht_init, h1, h2, hrg, h3, h4, h5, h6, h7, msecs_to_jiffies] at h
    subst h
    exact ⟨rfl, rfl⟩

theorem ceil_scaled (h : Nat) : ⌈((h : ℚ) * 8) / 100⌉₊ = (h * 8 + 99) / 100 := by
  apply le_antisymm
  · rw [Nat.ceil_le, div_le_iff₀ (by norm_num : (0 : ℚ) < 100)]
    have h1 : h * 8 ≤ (h * 8 + 99) / 100 * 100 := by omega
    exact_mod_cast h1
  · rcases Nat.eq_zero_or_pos ((h * 8 + 99) / 100) with h0 | hpos
    · rw [h0]; exact Nat.zero_le _
    · have h2 : (h * 8 + 99) / 100 - 1 < ⌈((h : ℚ) * 8) / 100⌉₊ := by
        rw [Nat.lt_ceil, lt_div_iff₀ (by norm_num : (0 : ℚ) < 100)]
        have h1 : ((h * 8 + 99) / 100 - 1) * 100 < h * 8 := by omega
        exact_mod_cast h1
      omega

theorem ledbar_level_nat (h : Nat) : ledbar_level h = ((min 8 ((h * 8 + 99) / 100) : Nat) : Int) := by
  unfold ledbar_level
  simp only
  have e : ((h : Int) * 8 + 99) / 100 = (((h * 8 + 99) / 100 : Nat) : Int) := by
    push_cast; rfl
  rw [e]
  split_ifs <;> omega

/-- C5: for every humidity byte `h`, the bar level `(h*8+99)/100` clamped to `[0, 8]`
equals `min(8, ceil(h*8/100))`; for `h` in `[0, 100]` it equals `ceil(h*8/100)`, and
`level(0) = 0`, `level(12) = 1`, `level(45) = 4`, `level(100) = 8`. -/
theorem ledbar_level_ceil (h : Nat) :
    ledbar_level h = ((min 8 ⌈((h : ℚ) * 8) / 100⌉₊ : Nat) : Int) ∧
    (h ≤ 100 → ledbar_level h = ((⌈((h : ℚ) * 8) / 100⌉₊ : Nat) : Int)) ∧
    ledbar_level 0 = 0 ∧ ledbar_level 12 = 1 ∧ ledbar_level 45 = 4 ∧
    ledbar_level 100 = 8 := by
  refine ⟨?_, ?_, by decide, by decide, by decide, by decide⟩
  · rw [ceil_scaled, ledbar_level_nat]
  · intro hh
    rw [ceil_scaled, ledbar_level_nat]
    have : (h * 8 + 99) / 100 ≤ 8 := by omega
    rw [min_eq_right this]

/-- C5, witness: at `h = 45` the level is `ceil(360/100) = 4`. -/
theorem ledbar_level_ceil_witness :
    45 ≤ 100 ∧ ledbar_level 45 = ((⌈(((45 : Nat) : ℚ) * 8) / 100⌉₊ : Nat) : Int) ∧
    ledbar_level 45 = 4 :=
  ⟨by decide, (ledbar_level_ceil 45).2.1 (by decide), (ledbar_level_ceil 45).2.2.2.2.1⟩

theorem ledbar_level_bounds (h : Nat) : 0 ≤ ledbar_level h ∧ ledbar_level h ≤ 8 := by
  rw [ledbar_level_nat]
  omega

/-- The level that `ledbar_apply_from_humi` leaves on the pin of output `i`. -/
theorem ledbar_apply_pin (h : Nat) (g : Nat → Int) (i : Nat) (hi : i < 8) :
    ledbar_apply_from_humi h g (led_gpios.getD i 0) =
      if (i : Int) < ledbar_level h then 1 else 0 := by
  unfold ledbar_apply_from_humi
  simp only [List.range, List.range.loop, List.foldl, gpio_set_value]
  interval_cases i <;> simp [led_gpios, Function.update]

theorem led_on_apply (h : Nat) (g : Nat → Int) (i : Nat) (hi : i < 8) :
    led_on (ledbar_apply_from_humi h g) i = decide ((i : Int) < ledbar_level h) := by
  unfold led_on
  rw [ledbar_apply_pin h g i hi]
  by_cases hl : (i : Int) < ledbar_level h <;> simp [hl]

theorem filter_below (k : Nat) (hk : k ≤ 8) :
    (List.range 8).filter (fun (i : Nat) => decide ((i : Int) < (k : Int))) = List.range k := by
  interval_cases k <;> decide

/-- C6: for every humidity byte `h` and every output index `i` in `0..7`, after
`ledbar_apply_from_humi(h)` output `i` is ON if and only if `i < level(h)`; the ON outputs
are exactly the first `level(h)` outputs and their number equals `level(h)`. -/
theorem ledbar_apply_outputs (h : Nat) (g : Nat → Int) (i : Nat) (hi : i < 8) :
    (led_on (ledbar_apply_from_humi h g) i = true ↔ (i : Int) < ledbar_level h) ∧
    (List.range 8).filter (led_on (ledbar_apply_from_humi h g)) =
      List.range (ledbar_level h).toNat ∧
    ((((List.range 8).filter (led_on (ledbar_apply_from_humi h g))).length : Nat) : Int) =
      ledbar_level h := by
  obtain ⟨hb0, hb8⟩ := ledbar_level_bounds h
  have hf : (List.range 8).filter (led_on (ledbar_apply_from_humi h g)) =
      List.range (ledbar_level h).toNat := by
    have hc : (List.range 8).filter (led_on (ledbar_apply_from_humi h g)) =
        (List.range 8).filter
          (fun (i : Nat) => decide ((i : Int) < (((ledbar_level h).toNat : Nat) : Int))) := by
      apply List.filter_congr
      intro x hx
      rw [led_on_apply h g x (List.mem_range.mp hx), Int.toNat_of_nonneg hb0]
    rw [hc]
    exact filter_below _ (by omega)
  refine ⟨?_, hf, ?_⟩
  · rw [led_on_apply h g i hi]
    simp
  · rw [hf, List.length_range]
    exact Int.toNat_of_nonneg hb0

/-- C6, witness: with humidity 45 output 3 is ON, output 4 is OFF, and four outputs are
ON. -/
theorem ledbar_apply_outputs_witness :
    3 < 8 ∧ 4 < 8 ∧
    led_on (ledbar_apply_from_humi 45 state0.gpio) 3 = true ∧
    ¬ led_on (ledbar_apply_from_humi 45 state0.gpio) 4 = true ∧
    (List.range 8).filter (led_on (ledbar_apply_from_humi 45 state0.gpio)) = [0, 1, 2, 3] :=
  ⟨by decide, by decide,
    (ledbar_apply_outputs 45 state0.gpio 3 (by decide)).1.mpr (by decide),
    fun hon => absurd ((ledbar_apply_outputs 45 state0.gpio 4 (by decide)).1.mp hon) (by decide),
    (ledbar_apply_outputs 45 state0.gpio 3 (by decide)).2.1.trans (by decide)⟩

/-- What every call of `dht11_sample` leaves alone: the cache, every pin other than the
data pin, and on failure also the sample clock and the two outputs; the time slept is the
one the rate gate computes. -/
theorem dht11_sample_frame (env : Env) (s : State) (t h : Nat) (r : SampleResult)
    (hr : dht11_sample env s t h = some r) :
    r.st.g_cache = s.g_cache ∧
    (∀ p, p ≠ dht_gpio → r.st.gpio p = s.gpio p) ∧
    r.slept = rate_gate env.now s.g_last_sample_j ∧
    (r.ret ≠ 0 → r.st.g_last_sample_j = s.g_last_sample_j ∧ r.out_temp = t ∧ r.out_humi = h) := by
  have hpin : ∀ p, p ≠ dht_gpio →
      gpio_set_value (gpio_set_value s.gpio dht_gpio 0) dht_gpio 1 p = s.gpio p := by
    intro p hp
    simp [gpio_set_value, Function.update, hp]
  unfold dht11_sample at hr
  obtain ⟨⟨ret, data, pos⟩, hc⟩ := capture_isSome env.line
  simp only [hc] at hr
  split_ifs at hr <;> simp only [Option.some.injEq] at hr <;> subst hr <;>
    simp_all

theorem poll_work_fn_of_failure (env : Env) (s : State)
    (hfail : (dht11_sample env s 0 0).map SampleResult.ret ≠ some 0) :
    (poll_work_fn env s).map State.g_cache =
      some { temp := s.g_cache.temp, humi := s.g_cache.humi, ok := 0 } ∧
    (poll_work_fn env s).map State.g_last_sample_j = some s.g_last_sample_j ∧
    ∀ s1, poll_work_fn env s = some s1 → ∀ p, p ≠ dht_gpio → s1.gpio p = s.gpio p := by
  obtain ⟨r, hr⟩ := dht11_sample_isSome env s 0 0
  obtain ⟨hc, hg, -, hf⟩ := dht11_sample_frame env s 0 0 r hr
  have hret : r.ret ≠ 0 := by
    intro h0
    apply hfail
    rw [hr, Option.map_some', h0]
  unfold poll_work_fn
  simp only [hr, hret, if_false, Option.map_some', hc, Option.some.injEq, (hf hret).1, true_and]
  intro s1 hs1
  subst hs1
  exact hg

/-- C7: for every prior state and every failing sample (any non-zero return of
`dht11_sample`: timeout, checksum mismatch or line-direction error), the sample cycle
`poll_work_fn` only marks the cache invalid: afterwards `ok = 0` and `temp` and `humi`
equal their values before the cycle. -/
theorem poll_work_fn_failure (env : Env) (s : State)
    (hfail : (dht11_sample env s 0 0).map SampleResult.ret ≠ some 0) :
    (poll_work_fn env s).map State.g_cache =
      some { temp := s.g_cache.temp, humi := s.g_cache.humi, ok := 0 } := by
  obtain ⟨r, hr⟩ := dht11_sample_isSome env s 0 0
  have hcache : r.st.g_cache = s.g_cache := (dht11_sample_frame env s 0 0 r hr).1
  have hret : r.ret ≠ 0 := by
    intro h0
    apply hfail
    rw [hr, Option.map_some', h0]
  unfold poll_work_fn
  simp only [hr, hret, if_false, Option.map_some', hcache]

set_option maxRecDepth 100000 in
/-- C7, witness: from the cache `{23, 45, 1}` a line-direction error, a handshake timeout
and a checksum mismatch each leave the cache `{23, 45, 0}`. -/
theorem poll_work_fn_failure_witness :
    (dht11_sample env_dir_error state_valid 0 0).map SampleResult.ret = some (-EINVAL) ∧
    (dht11_sample env_silent state_valid 0 0).map SampleResult.ret = some (-ETIMEDOUT) ∧
    (dht11_sample (env_of_frame [45, 0, 23, 0, 69]) state_valid 0 0).map SampleResult.ret
      = some (-EIO_val) ∧
    (poll_work_fn env_dir_error state_valid).map State.g_cache
      = some { temp := 23, humi := 45, ok := 0 } ∧
    (poll_work_fn env_silent state_valid).map State.g_cache
      = some { temp := 23, humi := 45, ok := 0 } ∧
    (poll_work_fn (env_of_frame [45, 0, 23, 0, 69]) state_valid).map State.g_cache
      = some { temp := 23, humi := 45, ok := 0 } :=
  ⟨by decide, by decide, by decide,
    poll_work_fn_failure env_dir_error state_valid (by decide),
    poll_work_fn_failure env_silent state_valid (by decide),
    poll_work_fn_failure (env_of_frame [45, 0, 23, 0, 69]) state_valid (by decide)⟩

set_option maxRecDepth 100000 in
/-- C8, as stated, fails: from a cache whose valid flag is 1, the frame `[45, 0, 23, 0, 69]`
(checksum byte 69 instead of 68) makes the sample fail with `-EIO`, and the sample cycle
leaves the valid flag at 0, not at its previous value 1. -/
theorem checksum_mismatch_flag_counterexample :
    (69 : Nat) ≠ (45 + 0 + 23 + 0) % 256 ∧
    (dht11_sample (env_of_frame [45, 0, 23, 0, 69]) state_valid 0 0).map SampleResult.ret
      = some (-EIO_val) ∧
    ¬ ((poll_work_fn (env_of_frame [45, 0, 23, 0, 69]) state_valid).map
        (fun s1 => s1.g_cache.ok) = some state_valid.g_cache.ok) := by
  decide

/-- C8, amended: for every captured frame whose fifth byte differs from the low 8 bits of
the sum of its first four bytes, the sample fails with the checksum-mismatch error `-EIO`,
and after the sample cycle the cache's valid flag is 0 while `temp` and `humi` keep their
values; the flag equals the one before the cycle exactly when that one was 0. -/
theorem checksum_mismatch_marks_invalid (env : Env) (s : State) (b0 b1 b2 b3 b4 : Nat)
    (r : Int) (pos : Nat) (hout : env.dir_out_ret = 0) (hin : env.dir_in_ret = 0)
    (hcap : capture env.line = some (r, [b0, b1, b2, b3, b4], pos)) (hr : 0 ≤ r)
    (hsum : b4 ≠ (b0 + b1 + b2 + b3) % 256) :
    (dht11_sample env s 0 0).map SampleResult.ret = some (-EIO_val) ∧
    (poll_work_fn env s).map State.g_cache =
      some { temp := s.g_cache.temp, humi := s.g_cache.humi, ok := 0 } ∧
    ((poll_work_fn env s).map (fun s1 => s1.g_cache.ok) = some s.g_cache.ok ↔
      s.g_cache.ok = 0) := by
  have h1 := dht11_sample_captured env s 0 0 r _ pos hout hin hcap hr
  simp only [List.getD_cons_zero, List.getD_cons_succ, ne_eq, hsum, not_false_eq_true,
    if_true] at h1
  have hret : (dht11_sample env s 0 0).map SampleResult.ret = some (-EIO_val) := by
    rw [h1]; rfl
  have hfail : (dht11_sample env s 0 0).map SampleResult.ret ≠ some 0 := by
    rw [hret]; decide
  have hc := (poll_work_fn_of_failure env s hfail).1
  refine ⟨hret, hc, ?_⟩
  obtain ⟨s1, hs1⟩ := poll_work_fn_isSome env s
  rw [hs1] at hc ⊢
  simp only [Option.map_some', Option.some.injEq] at hc ⊢
  rw [hc]
  exact eq_comm

set_option maxRecDepth 100000 in
/-- C8, witness: the frame `[45, 0, 23, 0, 69]` on the cache `{23, 45, 1}` fails with `-EIO`
and leaves `{23, 45, 0}`. -/
theorem checksum_mismatch_marks_invalid_witness :
    (env_of_frame [45, 0, 23, 0, 69]).dir_out_ret = 0 ∧
    (env_of_frame [45, 0, 23, 0, 69]).dir_in_ret = 0 ∧
    capture (env_of_frame [45, 0, 23, 0, 69]).line = some (0, [45, 0, 23, 0, 69], 123) ∧
    (0 : Int) ≤ 0 ∧ (69 : Nat) ≠ (45 + 0 + 23 + 0) % 256 ∧
    (poll_work_fn (env_of_frame [45, 0, 23, 0, 69]) state_valid).map State.g_cache =
      some { temp := 23, humi := 45, ok := 0 } :=
  ⟨rfl, rfl, by decide, by decide, by decide,
    (checksum_mismatch_marks_invalid (env_of_frame [45, 0, 23, 0, 69]) state_valid
      45 0 23 0 69 0 123 rfl rfl (by decide) (by decide) (by decide)).2.1⟩

theorem led_pin_ne_dht (i : Nat) : led_gpios.getD i 0 ≠ dht_gpio := by
  by_cases hi : i < 8
  · interval_cases i <;> decide
  · have h8 : led_gpios.length ≤ i := by simp [led_gpios]; omega
    rw [List.getD_eq_default _ _ h8]
    decide

theorem led_pattern_congr (g1 g2 : Nat → Int) (h : ∀ p, p ≠ dht_gpio → g1 p = g2 p) :
    led_pattern g1 = led_pattern g2 := by
  unfold led_pattern
  apply List.map_congr_left
  intro i _
  unfold led_on
  rw [h _ (led_pin_ne_dht i)]

theorem led_pattern_apply (h : Nat) (g : Nat → Int) :
    led_pattern (ledbar_apply_from_humi h g) = level_pattern (ledbar_level h) := by
  unfold led_pattern level_pattern
  apply List.map_congr_left
  intro i hi
  exact led_on_apply h g i (List.mem_range.mp hi)

theorem poll_cycles_all_fail (envs : List Env) :
    ∀ s, all_fail envs s = true →
      ∃ s2, poll_cycles envs s = some s2 ∧ ∀ p, p ≠ dht_gpio → s2.gpio p = s.gpio p := by
  induction envs with
  | nil => intro s _; exact ⟨s, rfl, fun _ _ => rfl⟩
  | cons e es ih =>
    intro s hf
    obtain ⟨r, hr⟩ := dht11_sample_isSome e s 0 0
    obtain ⟨s1, hs1⟩ := poll_work_fn_isSome e s
    simp only [all_fail, hr, hs1, Bool.and_eq_true, decide_eq_true_eq] at hf
    obtain ⟨s2, h2, hg2⟩ := ih s1 hf.2
    have hfail : (dht11_sample e s 0 0).map SampleResult.ret ≠ some 0 := by
      rw [hr, Option.map_some']
      intro h0
      exact hf.1 (Option.some.inj h0)
    have hg1 := (poll_work_fn_of_failure e s hfail).2.2 s1 hs1
    refine ⟨s2, by simp only [poll_cycles, hs1, h2], ?_⟩
    intro p hp
    rw [hg2 p hp, hg1 p hp]

/-- C9: the LED bar is recomputed only on a successful sample: after a successful sample
cycle with humidity `h` followed by any number of failed sample cycles, all eight outputs
still show the pattern of `level(h)`. -/
theorem ledbar_kept_after_failures (h : Nat) (env : Env) (envs : List Env) (s s1 : State)
    (hsucc : (dht11_sample env s 0 0).map (fun r => (r.ret, r.out_humi)) = some (0, h))
    (hs1 : poll_work_fn env s = some s1) (hfail : all_fail envs s1 = true) :
    (poll_cycles envs s1).map (fun s2 => led_pattern s2.gpio) =
      some (level_pattern (ledbar_level h)) := by
  obtain ⟨r, hr⟩ := dht11_sample_isSome env s 0 0
  rw [hr] at hsucc
  simp only [Option.map_some', Option.some.injEq, Prod.mk.injEq] at hsucc
  obtain ⟨hret, hh⟩ := hsucc
  unfold poll_work_fn at hs1
  simp only [hr, hret, if_true, Option.some.injEq] at hs1
  obtain ⟨s2, h2, hg2⟩ := poll_cycles_all_fail envs s1 hfail
  rw [h2, Option.map_some', led_pattern_congr _ _ hg2, ← hs1, hh]
  exact congrArg some (led_pattern_apply h _)

set_option maxRecDepth 100000 in
/-- C9, witness: a success with humidity 45 followed by one failed cycle leaves exactly
outputs 0..3 ON (level 4). -/
theorem ledbar_kept_after_failures_witness :
    (dht11_sample (env_of_frame [45, 0, 23, 0, 68]) state0 0 0).map
      (fun r => (r.ret, r.out_humi)) = some (0, 45) ∧
    poll_work_fn (env_of_frame [45, 0, 23, 0, 68]) state0 =
      some (after_cycle (env_of_frame [45, 0, 23, 0, 68]) state0) ∧
    all_fail [env_silent] (after_cycle (env_of_frame [45, 0, 23, 0, 68]) state0) = true ∧
    (poll_cycles [env_silent] (after_cycle (env_of_frame [45, 0, 23, 0, 68]) state0)).map
      (fun s2 => led_pattern s2.gpio) =
      some [true, true, true, true, false, false, false, false] :=
  ⟨by decide, rfl, by decide,
    (ledbar_kept_after_failures 45 (env_of_frame [45, 0, 23, 0, 68]) [env_silent] state0
      (after_cycle (env_of_frame [45, 0, 23, 0, 68]) state0) (by decide) rfl
      (by decide)).trans (by decide)⟩

theorem rate_gate_eq (now last : Int) : rate_gate now last = max 0 (1100 - (now - last)) := by
  unfold rate_gate time_before msecs_to_jiffies jiffies_to_msecs
  by_cases hlt : now - (last + 1100) < 0
  · simp only [hlt, decide_True, if_true]
    omega
  · simp only [hlt, decide_False, Bool.false_eq_true, if_false]
    omega

/-- The loop of `wait_pin_status` stops at the first read equal to `level`, when the
counter stays within the bound until then. -/
theorem wait_loop_hit (line : Nat → Int) (level time_us : Int) :
    ∀ (k fuel : Nat) (counter : Int) (pos : Nat), k < fuel →
      (∀ j, j < k → line (pos + j) ≠ level) → line (pos + k) = level →
      counter + k ≤ time_us →
      wait_loop line level time_us fuel counter pos = some (counter + k, pos + k + 1) := by
  intro k
  induction k with
  | zero =>
    intro fuel counter pos hf _ hk _
    obtain ⟨n, rfl⟩ : ∃ n, fuel = n + 1 := ⟨fuel - 1, by omega⟩
    unfold wait_loop
    simp only [Nat.add_zero] at hk
    simp [hk]
  | succ k ih =>
    intro fuel counter pos hf hne hk hc
    obtain ⟨n, rfl⟩ : ∃ n, fuel = n + 1 := ⟨fuel - 1, by omega⟩
    unfold wait_loop
    have h0 : line pos ≠ level := by simpa using hne 0 (by omega)
    have h1 : ¬ counter + 1 > time_us := by push_cast at hc; omega
    simp only [h0, h1, ne_eq, not_false_eq_true, if_true, if_false]
    rw [ih n (counter + 1) (pos + 1) (by omega)
      (fun j hj => by have := hne (j + 1) (by omega); rwa [show pos + 1 + j = pos + (j + 1) by omega])
      (by rwa [show pos + 1 + k = pos + (k + 1) by omega]) (by push_cast at hc ⊢; omega)]
    congr 2
    · push_cast; ring
    · omega

/-- The loop of `wait_pin_status` gives up at the read that takes the counter over the
bound, when no read before it equals `level`. -/
theorem wait_loop_timeout (line : Nat → Int) (level time_us : Int) :
    ∀ (m fuel : Nat) (counter : Int) (pos : Nat), m < fuel →
      (∀ j, j ≤ m → line (pos + j) ≠ level) →
      counter + m ≤ time_us → time_us < counter + m + 1 →
      wait_loop line level time_us fuel counter pos = some (-ETIMEDOUT, pos + m + 1) := by
  intro m
  induction m with
  | zero =>
    intro fuel counter pos hf hne _ hc
    obtain ⟨n, rfl⟩ : ∃ n, fuel = n + 1 := ⟨fuel - 1, by omega⟩
    unfold wait_loop
    have h0 : line pos ≠ level := by simpa using hne 0 (by omega)
    have h1 : counter + 1 > time_us := by push_cast at hc; omega
    simp [h0, h1]
  | succ m ih =>
    intro fuel counter pos hf hne hle hc
    obtain ⟨n, rfl⟩ : ∃ n, fuel = n + 1 := ⟨fuel - 1, by omega⟩
    unfold wait_loop
    have h0 : line pos ≠ level := by simpa using hne 0 (by omega)
    have h1 : ¬ counter + 1 > time_us := by push_cast at hle; omega
    simp only [h0, h1, ne_eq, not_false_eq_true, if_true, if_false]
    rw [ih n (counter + 1) (pos + 1) (by omega)
      (fun j hj => by have := hne (j + 1) (by omega); rwa [show pos + 1 + j = pos + (j + 1) by omega])
      (by push_cast at hle ⊢; omega) (by push_cast at hc ⊢; omega)]
    congr 2
    omega

/-- The two outcomes of `wait_pin_status(level, t)` for a bound `t ≥ 0`. -/
theorem wait_pin_status_cases (line : Nat → Int) (level : Int) (t pos : Nat) :
    ((∀ j, j ≤ t → line (pos + j) ≠ level) ∧
      wait_pin_status line level t pos = some (-ETIMEDOUT, pos + t + 1)) ∨
    (∃ k, k ≤ t ∧ (∀ j, j < k → line (pos + j) ≠ level) ∧ line (pos + k) = level ∧
      wait_pin_status line level t pos = some ((k : Int), pos + k + 1)) := by
  unfold wait_pin_status
  by_cases hall : ∀ j, j ≤ t → line (pos + j) ≠ level
  · left
    refine ⟨hall, ?_⟩
    have ht : ((t : Int)).toNat = t := Int.toNat_natCast t
    rw [ht]
    have h := wait_loop_timeout line level t t (t + 1) 0 pos (by omega) hall
      (by omega) (by omega)
    simpa using h
  · right
    push_neg at hall
    have hex : ∃ k, k ≤ t ∧ line (pos + k) = level := hall
    classical
    obtain ⟨k, ⟨hkt, hkeq⟩, hmin⟩ : ∃ k, (k ≤ t ∧ line (pos + k) = level) ∧
        ∀ j, j < k → ¬ (j ≤ t ∧ line (pos + j) = level) :=
      ⟨Nat.find hex, Nat.find_spec hex, fun j hj => Nat.find_min hex hj⟩
    have hne : ∀ j, j < k → line (pos + j) ≠ level :=
      fun j hj heq => hmin j hj ⟨by omega, heq⟩
    refine ⟨k, hkt, hne, hkeq, ?_⟩
    have ht : ((t : Int)).toNat = t := Int.toNat_natCast t
    rw [ht]
    have h := wait_loop_hit line level t k (t + 1) 0 pos (by omega) hne hkeq
      (by omega)
    simpa using h

/-- C18: for every target level, every bound `t ≥ 0` and every sequence of line reads,
`wait_pin_status(level, t)` returns the timeout error if and only if the first `t + 1`
reads all differ from `level`; otherwise it returns the elapsed count `k ≤ t`, the number
of reads that differed from `level` before the first read equal to it. -/
theorem wait_pin_status_spec (line : Nat → Int) (level : Int) (t pos : Nat) :
    ((wait_pin_status line level t pos).map Prod.fst = some (-ETIMEDOUT) ↔
      ∀ j, j ≤ t → line (pos + j) ≠ level) ∧
    (∀ k, k ≤ t → (∀ j, j < k → line (pos + j) ≠ level) → line (pos + k) = level →
      wait_pin_status line level t pos = some ((k : Int), pos + k + 1)) := by
  rcases wait_pin_status_cases line level t pos with ⟨hall, hres⟩ | ⟨k, hkt, hne, hkeq, hres⟩
  · refine ⟨⟨fun _ => hall, fun _ => by rw [hres]; rfl⟩, ?_⟩
    intro k hkt _ hkeq
    exact absurd hkeq (hall k hkt)
  · refine ⟨⟨?_, ?_⟩, ?_⟩
    · intro h
      rw [hres] at h
      simp only [Option.map_some', Option.some.injEq, ETIMEDOUT] at h
      omega
    · intro hall
      exact absurd hkeq (hall k hkt)
    · intro k2 _ hne2 hkeq2
      have hk : k2 = k := by
        rcases Nat.lt_trichotomy k2 k with hlt | heq | hgt
        · exact absurd hkeq2 (hne k2 hlt)
        · exact heq
        · exact absurd hkeq (hne2 k hgt)
      rw [hk]
      exact hres

/-- C18, witness: on a line that is high for three reads and low afterwards, waiting for
low with bound 200 returns 3 after four reads; on a line that stays high, waiting for low
with bound 5 times out. -/
theorem wait_pin_status_spec_witness :
    3 ≤ 200 ∧ (∀ j, j < 3 → line_high_then_low 3 (0 + j) ≠ 0) ∧
    line_high_then_low 3 (0 + 3) = 0 ∧
    wait_pin_status (line_high_then_low 3) 0 (200 : Nat) 0 = some (((3 : Nat) : Int), 0 + 3 + 1) ∧
    (∀ j, j ≤ 5 → env_silent.line (0 + j) ≠ 0) ∧
    (wait_pin_status env_silent.line 0 (5 : Nat) 0).map Prod.fst = some (-ETIMEDOUT) :=
  ⟨by decide, by decide, by decide,
    (wait_pin_status_spec (line_high_then_low 3) 0 200 0).2 3 (by decide) (by decide)
      (by decide),
    by decide,
    (wait_pin_status_spec env_silent.line 0 5 0).1.mpr (by decide)⟩

/-- Where `wait_pin_status` stops and what it returns, for a bound `t ≥ 0`. -/
theorem wait_pin_status_bound (line : Nat → Int) (level : Int) (t pos : Nat) (r : Int)
    (p : Nat) (h : wait_pin_status line level t pos = some (r, p)) :
    pos < p ∧ p ≤ pos + (t + 1) ∧ (r = -ETIMEDOUT ∨ (0 ≤ r ∧ r ≤ t)) := by
  rcases wait_pin_status_cases line level t pos with ⟨_, hres⟩ | ⟨k, hkt, _, _, hres⟩
  · rw [hres] at h
    simp only [Option.some.injEq, Prod.mk.injEq] at h
    obtain ⟨h1, h2⟩ := h
    exact ⟨by omega, by omega, Or.inl h1.symm⟩
  · rw [hres] at h
    simp only [Option.some.injEq, Prod.mk.injEq] at h
    obtain ⟨h1, h2⟩ := h
    exact ⟨by omega, by omega, Or.inr ⟨by omega, by omega⟩⟩

/-- The reads and the return value of the bit loop of `dht11_sample`. -/
theorem capture_bits_bound (line : Nat → Int) :
    ∀ (n i : Nat) (ret : Int) (data : List Nat) (pos : Nat) (r : Int) (d : List Nat)
      (p : Nat), capture_bits line n i ret data pos = some (r, d, p) →
      p ≤ pos + n * (121 + 1 + 151) ∧ (r = ret ∨ r = -ETIMEDOUT ∨ 0 ≤ r) := by
  intro n
  induction n with
  | zero =>
    intro i ret data pos r d p h
    simp only [capture_bits, Option.some.injEq, Prod.mk.injEq] at h
    exact ⟨by omega, Or.inl h.1.symm⟩
  | succ n ih =>
    intro i ret data pos r d p h
    unfold capture_bits at h
    obtain ⟨⟨r1, p1⟩, h1⟩ := wait_pin_status_isSome line 1 120 pos
    obtain ⟨⟨r2, p2⟩, h2⟩ := wait_pin_status_isSome line 0 150 (p1 + 1)
    have b1 := wait_pin_status_bound line 1 120 pos r1 p1 h1
    have b2 := wait_pin_status_bound line 0 150 (p1 + 1) r2 p2 h2
    simp only [h1, h2] at h
    by_cases hr1 : r1 < 0
    · simp only [hr1, if_true, Option.some.injEq, Prod.mk.injEq] at h
      obtain ⟨e1, -, e3⟩ := h
      refine ⟨by omega, ?_⟩
      rcases b1.2.2 with ht | hn
      · exact Or.inr (Or.inl (by rw [← e1, ht]))
      · omega
    · by_cases hr2 : r2 < 0
      · simp only [hr1, hr2, if_true, if_false, Option.some.injEq, Prod.mk.injEq] at h
        obtain ⟨e1, -, e3⟩ := h
        refine ⟨by omega, ?_⟩
        rcases b2.2.2 with ht | hn
        · exact Or.inr (Or.inl (by rw [← e1, ht]))
        · omega
      · simp only [hr1, hr2, if_false] at h
        obtain ⟨hp, hr⟩ := ih _ _ _ _ _ _ _ h
        refine ⟨by omega, ?_⟩
        rcases hr with e | e | e
        · exact Or.inr (Or.inr (by omega))
        · exact Or.inr (Or.inl e)
        · exact Or.inr (Or.inr e)

/-- The reads and the return value of the capture part of `dht11_sample`. -/
theorem capture_bound (line : Nat → Int) (r : Int) (d : List Nat) (p : Nat)
    (h : capture line = some (r, d, p)) :
    p ≤ 3 * 201 + 40 * (121 + 1 + 151) ∧ (r = -ETIMEDOUT ∨ 0 ≤ r) := by
  unfold capture at h
  obtain ⟨⟨r1, p1⟩, h1⟩ := wait_pin_status_isSome line 0 200 0
  obtain ⟨⟨r2, p2⟩, h2⟩ := wait_pin_status_isSome line 1 200 p1
  obtain ⟨⟨r3, p3⟩, h3⟩ := wait_pin_status_isSome line 0 200 p2
  have b1 := wait_pin_status_bound line 0 200 0 r1 p1 h1
  have b2 := wait_pin_status_bound line 1 200 p1 r2 p2 h2
  have b3 := wait_pin_status_bound line 0 200 p2 r3 p3 h3
  simp only [h1, h2, h3] at h
  by_cases hr1 : r1 < 0
  · simp only [hr1, if_true, Option.some.injEq, Prod.mk.injEq] at h
    obtain ⟨e1, -, e3⟩ := h
    exact ⟨by omega, by rcases b1.2.2 with ht | hn <;> [exact Or.inl (by rw [← e1, ht]); omega]⟩
  · by_cases hr2 : r2 < 0
    · simp only [hr1, hr2, if_true, if_false, Option.some.injEq, Prod.mk.injEq] at h
      obtain ⟨e1, -, e3⟩ := h
      exact ⟨by omega, by rcases b2.2.2 with ht | hn <;> [exact Or.inl (by rw [← e1, ht]); omega]⟩
    · by_cases hr3 : r3 < 0
      · simp only [hr1, hr2, hr3, if_true, if_false, Option.some.injEq, Prod.mk.injEq] at h
        obtain ⟨e1, -, e3⟩ := h
        exact ⟨by omega,
          by rcases b3.2.2 with ht | hn <;> [exact Or.inl (by rw [← e1, ht]); omega]⟩
      · simp only [hr1, hr2, hr3, if_false] at h
        obtain ⟨hp, hr⟩ := capture_bits_bound line _ _ _ _ _ _ _ _ h
        refine ⟨by omega, ?_⟩
        rcases hr with e | e | e
        · exact Or.inr (by omega)
        · exact Or.inl e
        · exact Or.inr e

/-- C13: a sensor can never hang the caller: for every sequence of line levels, every
level and every bound `t ≥ 0`, `wait_pin_status(level, t)` returns after at most `t + 1`
line reads, so the capture part of `dht11_sample` (three handshake waits and forty bit
iterations) returns after at most `3*201 + 40*(121 + 1 + 151)` line reads, and so does
`dht11_sample`. -/
theorem capture_terminates (line : Nat → Int) (level : Int) (t pos : Nat) (env : Env)
    (s : State) (ot oh : Nat) :
    (∃ r p, wait_pin_status line level t pos = some (r, p) ∧ pos < p ∧ p - pos ≤ t + 1) ∧
    (∃ r d p, capture line = some (r, d, p) ∧ p ≤ 3 * 201 + 40 * (121 + 1 + 151)) ∧
    (∃ res, dht11_sample env s ot oh = some res ∧
      res.reads ≤ 3 * 201 + 40 * (121 + 1 + 151)) := by
  refine ⟨?_, ?_, ?_⟩
  · obtain ⟨⟨r, p⟩, h⟩ := wait_pin_status_isSome line level t pos
    have b := wait_pin_status_bound line level t pos r p h
    exact ⟨r, p, h, b.1, by omega⟩
  · obtain ⟨⟨r, d, p⟩, h⟩ := capture_isSome line
    exact ⟨r, d, p, h, (capture_bound line r d p h).1⟩
  · obtain ⟨⟨r, d, p⟩, h⟩ := capture_isSome env.line
    have hb := (capture_bound env.line r d p h).1
    unfold dht11_sample
    simp only [h]
    split_ifs <;> exact ⟨_, rfl, by first | exact hb | exact Nat.zero_le _⟩

/-- What `dht11_sample` does once both direction changes succeeded and the capture ended
with a negative return: that return is `-ETIMEDOUT` and is handed on; the outputs, the
cache and the sample clock are untouched and the checksum test is skipped. -/
theorem dht11_sample_negative_capture (env : Env) (s : State) (t h : Nat) (r : Int)
    (data : List Nat) (pos : Nat) (hout : env.dir_out_ret = 0) (hin : env.dir_in_ret = 0)
    (hcap : capture env.line = some (r, data, pos)) (hr : r < 0) :
    r = -ETIMEDOUT ∧
    (dht11_sample env s t h).map
        (fun x => (x.ret, x.out_temp, x.out_humi, x.st.g_cache, x.st.g_last_sample_j)) =
      some (-ETIMEDOUT, t, h, s.g_cache, s.g_last_sample_j) ∧
    (poll_work_fn env s).map State.g_cache =
      some { temp := s.g_cache.temp, humi := s.g_cache.humi, ok := 0 } := by
  have hto : r = -ETIMEDOUT := by
    rcases (capture_bound env.line r data pos hcap).2 with e | e
    · exact e
    · omega
  have hs : ∀ t h, dht11_sample env s t h =
      some ⟨r, t, h, after_start s, rate_gate env.now s.g_last_sample_j, pos⟩ := by
    intro t h
    unfold dht11_sample
    simp only [hout, hin, hcap, hr, ne_eq, not_true_eq_false, if_false, if_true, after_start]
  refine ⟨hto, ?_, ?_⟩
  · rw [hs, ← hto]
    rfl
  · have hne : r ≠ 0 := by omega
    unfold poll_work_fn
    rw [hs]
    simp only [hne, if_false, Option.map_some']
    rfl

/-! ## Timeouts seen on the line -/

theorem wait_outcome_none (line : Nat → Int) (level : Int) :
    ∀ (t pos : Nat), wait_outcome line level t pos = none →
      ∀ j, j ≤ t → line (pos + j) ≠ level := by
  intro t
  induction t with
  | zero =>
    intro pos h j hj
    have hj0 : j = 0 := by omega
    subst hj0
    simp only [wait_outcome] at h
    split_ifs at h with h0
    simpa using h0
  | succ t ih =>
    intro pos h j hj
    simp only [wait_outcome] at h
    split_ifs at h with h0
    rcases Nat.eq_zero_or_pos j with hj0 | hjp
    · subst hj0
      simpa using h0
    · have hn : wait_outcome line level t (pos + 1) = none := by
        simpa using h
      have := ih (pos + 1) hn (j - 1) (by omega)
      rwa [show pos + 1 + (j - 1) = pos + j by omega] at this

theorem wait_outcome_some (line : Nat → Int) (level : Int) :
    ∀ (t pos k : Nat), wait_outcome line level t pos = some k →
      k ≤ t ∧ (∀ j, j < k → line (pos + j) ≠ level) ∧ line (pos + k) = level := by
  intro t
  induction t with
  | zero =>
    intro pos k h
    simp only [wait_outcome] at h
    split_ifs at h with h0
    simp only [Option.some.injEq] at h
    subst h
    exact ⟨le_refl 0, fun j hj => absurd hj (Nat.not_lt_zero j), by simpa using h0⟩
  | succ t ih =>
    intro pos k h
    simp only [wait_outcome] at h
    split_ifs at h with h0
    · simp only [Option.some.injEq] at h
      subst h
      exact ⟨Nat.zero_le _, fun j hj => absurd hj (Nat.not_lt_zero j), by simpa using h0⟩
    · obtain ⟨k1, hk1, rfl⟩ : ∃ k1, wait_outcome line level t (pos + 1) = some k1 ∧
          k1 + 1 = k := by
        simpa using h
      obtain ⟨a, b, c⟩ := ih (pos + 1) k1 hk1
      refine ⟨by omega, ?_, by rwa [show pos + (k1 + 1) = pos + 1 + k1 by omega]⟩
      intro j hj
      rcases Nat.eq_zero_or_pos j with hj0 | hjp
      · subst hj0
        simpa using h0
      · have := b (j - 1) (by omega)
        rwa [show pos + 1 + (j - 1) = pos + j by omega] at this

/-- The wait exceeds its bound exactly when the first `t + 1` reads all differ from
`level`. -/
theorem wait_outcome_none_iff (line : Nat → Int) (level : Int) (t pos : Nat) :
    wait_outcome line level t pos = none ↔ ∀ j, j ≤ t → line (pos + j) ≠ level := by
  constructor
  · exact wait_outcome_none line level t pos
  · intro hall
    cases h : wait_outcome line level t pos with
    | none => rfl
    | some k =>
      obtain ⟨a, _, c⟩ := wait_outcome_some line level t pos k h
      exact absurd c (hall k a)

/-- What `wait_pin_status` returns, read off the line. -/
theorem wait_pin_status_outcome (line : Nat → Int) (level : Int) (t pos : Nat) :
    wait_pin_status line level t pos =
      match wait_outcome line level t pos with
      | none => some (-ETIMEDOUT, pos + t + 1)
      | some k => some ((k : Int), pos + k + 1) := by
  rcases wait_pin_status_cases line level t pos with ⟨hall, hres⟩ | ⟨k, hkt, hne, hkeq, hres⟩
  · rw [(wait_outcome_none_iff line level t pos).mpr hall]
    exact hres
  · cases h : wait_outcome line level t pos with
    | none => exact absurd hkeq (wait_outcome_none line level t pos h k hkt)
    | some k2 =>
      obtain ⟨a, b, c⟩ := wait_outcome_some line level t pos k2 h
      have hk : k2 = k := by
        rcases Nat.lt_trichotomy k2 k with hlt | heq | hgt
        · exact absurd c (hne k2 hlt)
        · exact heq
        · exact absurd hkeq (b k hgt)
      rw [hk]
      exact hres

/-- The bit loop of `dht11_sample` ends with a negative return exactly when one of its
waits exceeds its bound on the line. -/
theorem capture_bits_outcome (line : Nat → Int) :
    ∀ (n i : Nat) (ret : Int) (data : List Nat) (pos : Nat) (r : Int) (d : List Nat)
      (p : Nat), 0 ≤ ret → capture_bits line n i ret data pos = some (r, d, p) →
      (r < 0 ↔ bits_time_out line n pos = true) ∧ (r < 0 → r = -ETIMEDOUT) := by
  intro n
  induction n with
  | zero =>
    intro i ret data pos r d p hret h
    simp only [capture_bits, Option.some.injEq, Prod.mk.injEq] at h
    simp only [bits_time_out, Bool.false_eq_true, iff_false, not_lt]
    exact ⟨by omega, fun hr => by omega⟩
  | succ n ih =>
    intro i ret data pos r d p hret h
    have h1 : wait_pin_status line 1 120 pos = _ := wait_pin_status_outcome line 1 120 pos
    unfold capture_bits at h
    cases ho1 : wait_outcome line 1 120 pos with
    | none =>
      rw [ho1] at h1
      simp only [h1, ETIMEDOUT, Int.reduceNeg, Int.reduceLT, if_true, Option.some.injEq,
        Prod.mk.injEq] at h
      have hr : r = -110 := h.1.symm
      simp [bits_time_out, ho1, ETIMEDOUT, hr]
    | some k1 =>
      rw [ho1] at h1
      have hk1 : ¬ ((k1 : Int) < 0) := by omega
      have h2 : wait_pin_status line 0 150 (pos + k1 + 1 + 1) = _ :=
        wait_pin_status_outcome line 0 150 (pos + k1 + 1 + 1)
      cases ho2 : wait_outcome line 0 150 (pos + k1 + 1 + 1) with
      | none =>
        rw [ho2] at h2
        simp only [h1, hk1, if_false, h2, ETIMEDOUT, Int.reduceNeg, Int.reduceLT, if_true,
          Option.some.injEq, Prod.mk.injEq] at h
        have hr : r = -110 := h.1.symm
        simp [bits_time_out, ho1, ho2, ETIMEDOUT, hr]
      | some k2 =>
        rw [ho2] at h2
        have hk2 : ¬ ((k2 : Int) < 0) := by omega
        simp only [h1, hk1, if_false, h2, hk2] at h
        have hi := ih _ _ _ _ _ _ _ (by omega) h
        simp only [bits_time_out, ho1, ho2]
        exact hi

/-- The capture part of `dht11_sample` ends with a negative return, which is then
`-ETIMEDOUT`, exactly when one of its waits exceeds its bound on the line. -/
theorem capture_outcome (line : Nat → Int) (r : Int) (d : List Nat) (p : Nat)
    (h : capture line = some (r, d, p)) :
    (r < 0 ↔ line_times_out line = true) ∧ (r < 0 → r = -ETIMEDOUT) := by
  have h1 : wait_pin_status line 0 200 0 = _ := wait_pin_status_outcome line 0 200 0
  unfold capture at h
  cases ho1 : wait_outcome line 0 200 0 with
  | none =>
    rw [ho1] at h1
    simp only [h1, ETIMEDOUT, Int.reduceNeg, Int.reduceLT, if_true, Option.some.injEq,
      Prod.mk.injEq] at h
    have hr : r = -110 := h.1.symm
    simp [line_times_out, ho1, ETIMEDOUT, hr]
  | some k1 =>
    rw [ho1] at h1
    have hk1 : ¬ ((k1 : Int) < 0) := by omega
    have h2 : wait_pin_status line 1 200 (0 + k1 + 1) = _ :=
      wait_pin_status_outcome line 1 200 (0 + k1 + 1)
    simp only [zero_add] at h1 h2
    cases ho2 : wait_outcome line 1 200 (k1 + 1) with
    | none =>
      rw [ho2] at h2
      simp only [h1, hk1, if_false, h2, ETIMEDOUT, Int.reduceNeg, Int.reduceLT, if_true,
        Option.some.injEq, Prod.mk.injEq] at h
      have hr : r = -110 := h.1.symm
      simp [line_times_out, ho1, ho2, ETIMEDOUT, hr]
    | some k2 =>
      rw [ho2] at h2
      have hk2 : ¬ ((k2 : Int) < 0) := by omega
      have h3 : wait_pin_status line 0 200 (k1 + 1 + k2 + 1) = _ :=
        wait_pin_status_outcome line 0 200 (k1 + 1 + k2 + 1)
      cases ho3 : wait_outcome line 0 200 (k1 + 1 + k2 + 1) with
      | none =>
        rw [ho3] at h3
        simp only [h1, hk1, if_false, h2, hk2, h3, ETIMEDOUT, Int.reduceNeg, Int.reduceLT,
          if_true, Option.some.injEq, Prod.mk.injEq] at h
        have hr : r = -110 := h.1.symm
        simp [line_times_out, ho1, ho2, ho3, ETIMEDOUT, hr]
      | some k3 =>
        rw [ho3] at h3
        have hk3 : ¬ ((k3 : Int) < 0) := by omega
        simp only [h1, hk1, if_false, h2, hk2, h3, hk3] at h
        have hb := capture_bits_outcome line _ _ _ _ _ _ _ _ (by omega) h
        simp only [line_times_out, ho1, ho2, ho3]
        exact hb

/-- C12: for every line on which one of the three handshake waits (bound 200 each) or one
of the per-bit waits (rising edge bound 120, falling edge bound 150) exceeds its bound,
`dht11_sample` returns the timeout error and never a reading: `*out_temp` and `*out_humi`
keep their values, the cache and the sample clock are untouched and the checksum test is
skipped, whatever bits were captured before; the sample cycle then only marks the cache
invalid.  On a line on which no wait exceeds its bound the timeout error is not
returned. -/
theorem dht11_sample_timeout (env : Env) (s : State) (t h : Nat)
    (hout : env.dir_out_ret = 0) (hin : env.dir_in_ret = 0) :
    (line_times_out env.line = true →
      (dht11_sample env s t h).map
          (fun x => (x.ret, x.out_temp, x.out_humi, x.st.g_cache, x.st.g_last_sample_j)) =
        some (-ETIMEDOUT, t, h, s.g_cache, s.g_last_sample_j) ∧
      (poll_work_fn env s).map State.g_cache =
        some { temp := s.g_cache.temp, humi := s.g_cache.humi, ok := 0 }) ∧
    (line_times_out env.line = false →
      (dht11_sample env s t h).map SampleResult.ret ≠ some (-ETIMEDOUT)) := by
  obtain ⟨⟨r, d, p⟩, hc⟩ := capture_isSome env.line
  obtain ⟨hiff, -⟩ := capture_outcome env.line r d p hc
  constructor
  · intro hto
    have hr : r < 0 := hiff.mpr hto
    exact (dht11_sample_negative_capture env s t h r d p hout hin hc hr).2
  · intro hno
    have hr : 0 ≤ r := by
      by_contra hcon
      have := hiff.mp (by omega)
      rw [hno] at this
      cases this
    rw [dht11_sample_captured env s t h r d p hout hin hc hr]
    split_ifs <;> simp [ETIMEDOUT, EIO_val]

set_option maxRecDepth 100000 in
/-- C12, witness: a line that stays high exceeds the first handshake wait, with the
all-zero frame, which would pass the checksum test; a line that stays low exceeds the
second handshake wait; a line that sticks high in the ninth bit exceeds a falling-edge
wait with the frame `[0, 1, 0, 0, 0]`.  Each call returns `-ETIMEDOUT` and leaves the
outputs 7 and 9 as they were.  The line that carries `[45, 0, 23, 0, 68]` exceeds no
bound. -/
theorem dht11_sample_timeout_witness :
    line_times_out env_silent.line = true ∧
    line_times_out env_stuck_low.line = true ∧
    line_times_out env_stuck_high.line = true ∧
    line_times_out (env_of_frame [45, 0, 23, 0, 68]).line = false ∧
    capture env_silent.line = some (-110, [0, 0, 0, 0, 0], 201) ∧
    capture env_stuck_low.line = some (-110, [0, 0, 0, 0, 0], 202) ∧
    capture env_stuck_high.line = some (-110, [0, 1, 0, 0, 0], 180) ∧
    (dht11_sample env_silent state_valid 7 9).map
        (fun x => (x.ret, x.out_temp, x.out_humi, x.st.g_cache, x.st.g_last_sample_j)) =
      some (-ETIMEDOUT, 7, 9, state_valid.g_cache, state_valid.g_last_sample_j) ∧
    (dht11_sample env_stuck_low state_valid 7 9).map
        (fun x => (x.ret, x.out_temp, x.out_humi, x.st.g_cache, x.st.g_last_sample_j)) =
      some (-ETIMEDOUT, 7, 9, state_valid.g_cache, state_valid.g_last_sample_j) ∧
    (dht11_sample env_stuck_high state_valid 7 9).map
        (fun x => (x.ret, x.out_temp, x.out_humi, x.st.g_cache, x.st.g_last_sample_j)) =
      some (-ETIMEDOUT, 7, 9, state_valid.g_cache, state_valid.g_last_sample_j) ∧
    (dht11_sample (env_of_frame [45, 0, 23, 0, 68]) state_valid 7 9).map SampleResult.ret ≠
      some (-ETIMEDOUT) :=
  ⟨by decide, by decide, by decide, by decide, by decide, by decide, by decide,
    ((dht11_sample_timeout env_silent state_valid 7 9 rfl rfl).1 (by decide)).1,
    ((dht11_sample_timeout env_stuck_low state_valid 7 9 rfl rfl).1 (by decide)).1,
    ((dht11_sample_timeout env_stuck_high state_valid 7 9 rfl rfl).1 (by decide)).1,
    (dht11_sample_timeout (env_of_frame [45, 0, 23, 0, 68]) state_valid 7 9 rfl rfl).2
      (by decide)⟩

/-! ## The sample clock -/

theorem rate_gate_nonneg (now last : Int) : 0 ≤ rate_gate now last := by
  rw [rate_gate_eq]
  omega

/-- A successful `dht11_sample` went through both direction changes and stamped the sample
clock with the time at its end. -/
theorem dht11_sample_success (env : Env) (s : State) (t h : Nat) (r : SampleResult)
    (hr : dht11_sample env s t h = some r) (hret : r.ret = 0) :
    env.dir_out_ret = 0 ∧ env.dir_in_ret = 0 ∧ r.st.g_last_sample_j = sample_end env s := by
  unfold dht11_sample at hr
  obtain ⟨⟨ret, data, pos⟩, hc⟩ := capture_isSome env.line
  simp only [hc] at hr
  split_ifs at hr with h1 h2 h3 h4 <;> simp only [Option.some.injEq] at hr <;> subst hr
  · exact absurd hret h1
  · exact absurd hret h2
  · simp only at hret; omega
  · simp only [EIO_val] at hret; omega
  · exact ⟨by simpa using h1, by simpa using h2, rfl⟩

set_option maxRecDepth 100000 in
/-- C11, as stated, fails: from a sample clock of 0, a transaction that begins at 5000
times out and completes at 5025 without advancing the sample clock; the next invocation,
triggered 300 ms after the first at 5300, does not sleep and begins its start pulse at
5300, earlier than 5025 + 1100 and earlier than 800 ms after its trigger. -/
theorem retrigger_after_failure_counterexample :
    (dht11_sample (env_silent_at 5000) state_valid 0 0).map SampleResult.ret
      = some (-ETIMEDOUT) ∧
    cycle_end (env_silent_at 5000) state_valid = 5025 ∧
    (dht11_sample (env_good_at 5300) (after_cycle (env_silent_at 5000) state_valid) 0 0).map
      (fun r2 => (env_good_at 5300).now + r2.slept) = some 5300 ∧
    ¬ ((dht11_sample (env_good_at 5300) (after_cycle (env_silent_at 5000) state_valid) 0 0).map
      (fun r2 => decide (cycle_end (env_silent_at 5000) state_valid + 1100 ≤
        (env_good_at 5300).now + r2.slept)) = some true) := by
  decide

/-- C11, amended: the 1100 ms minimum re-trigger interval is enforced after every
successful transaction: when an invocation of `dht11_sample` returned success, the next
invocation (which begins no earlier than the first one ended) never begins its start pulse
earlier than 1100 ms after the first transaction completed; if it is triggered at most
300 ms after the first trigger it sleeps at least 800 ms. -/
theorem retrigger_after_success (env1 env2 : Env) (s s2 : State) (t1 h1 t2 h2 : Nat)
    (r1 : SampleResult) (hr1 : dht11_sample env1 s t1 h1 = some r1) (hok : r1.ret = 0)
    (hs2 : s2.g_last_sample_j = r1.st.g_last_sample_j)
    (hmono : cycle_end env1 s ≤ env2.now) :
    (dht11_sample env2 s2 t2 h2).map
      (fun r2 => decide (cycle_end env1 s + 1100 ≤ env2.now + r2.slept)) = some true ∧
    (env2.now ≤ env1.now + 300 →
      (dht11_sample env2 s2 t2 h2).map (fun r2 => decide (800 ≤ r2.slept)) = some true) := by
  obtain ⟨ho, hi, hclk⟩ := dht11_sample_success env1 s t1 h1 r1 hr1 hok
  obtain ⟨r2, hr2⟩ := dht11_sample_isSome env2 s2 t2 h2
  have hsl := (dht11_sample_frame env2 s2 t2 h2 r2 hr2).2.2.1
  have hend : cycle_end env1 s = sample_end env1 s := by
    unfold cycle_end
    simp [ho, hi]
  have hg := rate_gate_nonneg env1.now s.g_last_sample_j
  rw [rate_gate_eq, hs2, hclk] at hsl
  rw [hend] at hmono ⊢
  rw [hr2]
  simp only [Option.map_some', Option.some.injEq, decide_eq_true_eq]
  constructor
  · omega
  · intro h300
    unfold sample_end at hsl hmono
    omega

set_option maxRecDepth 100000 in
/-- C11, witness: a success that begins at 5000 ends at 5025; the next invocation,
triggered at 5300, sleeps 825 ms and begins its start pulse at 6125. -/
theorem retrigger_after_success_witness :
    (dht11_sample (env_good_at 5000) state_valid 0 0).map SampleResult.ret = some 0 ∧
    cycle_end (env_good_at 5000) state_valid ≤ (env_good_at 5300).now ∧
    (env_good_at 5300).now ≤ (env_good_at 5000).now + 300 ∧
    (dht11_sample (env_good_at 5300) (after_cycle (env_good_at 5000) state_valid) 0 0).map
      SampleResult.slept = some 825 ∧
    (dht11_sample (env_good_at 5300) (after_cycle (env_good_at 5000) state_valid) 0 0).map
      (fun r2 => decide (cycle_end (env_good_at 5000) state_valid + 1100 ≤
        (env_good_at 5300).now + r2.slept)) = some true :=
  ⟨by decide, by decide, by decide, by decide,
    (retrigger_after_success (env_good_at 5000) (env_good_at 5300) state_valid
      (after_cycle (env_good_at 5000) state_valid) 0 0 0 0
      ((dht11_sample (env_good_at 5000) state_valid 0 0).getD ⟨0, 0, 0, state_valid, 0, 0⟩)
      rfl (by decide) rfl (by decide)).1⟩

/-! ## Queries -/

theorem poll_cycles_all_fail_cache (envs : List Env) :
    ∀ s s2, s.g_cache = { temp := 0, humi := 0, ok := 0 } → all_fail envs s = true →
      poll_cycles envs s = some s2 → s2.g_cache = { temp := 0, humi := 0, ok := 0 } := by
  induction envs with
  | nil =>
    intro s s2 hc _ hrun
    simp only [poll_cycles, Option.some.injEq] at hrun
    rw [← hrun]
    exact hc
  | cons e es ih =>
    intro s s2 hc hf hrun
    obtain ⟨r, hr⟩ := dht11_sample_isSome e s 0 0
    obtain ⟨s1, hs1⟩ := poll_work_fn_isSome e s
    simp only [all_fail, hr, hs1, Bool.and_eq_true, decide_eq_true_eq] at hf
    simp only [poll_cycles, hs1] at hrun
    have hfail : (dht11_sample e s 0 0).map SampleResult.ret ≠ some 0 := by
      rw [hr, Option.map_some']
      intro h0
      exact hf.1 (Option.some.inj h0)
    have h1 := (poll_work_fn_of_failure e s hfail).1
    rw [hs1, Option.map_some', Option.some.injEq, hc] at h1
    exact ih s1 s2 h1 hf.2 hrun

/-- C15: in the state established by `dht_init`, and as long as no sample cycle has
succeeded, the cache is `{temp: 0, humi: 0, ok: 0}`; the textual query `dht_read` (offset
0, room for the line, writable buffer) returns exactly `DHT11 read error` with a newline,
and the structured query `dht_ioctl(DHT11_IOCTL_READ)` returns a record with `valid = 0`;
no query in this state delivers anything else. -/
theorem init_state_queries (k : InitEnv) (s0 s s2 : State) (envs : List Env)
    (hinit : dht_init k s0 = (0, s)) (hfail : all_fail envs s = true)
    (hrun : poll_cycles envs s = some s2) :
    s2.g_cache = { temp := 0, humi := 0, ok := 0 } ∧
    (∀ len, 17 ≤ len → dht_read s2 true len 0 = ⟨17, some "DHT11 read error\n", 17⟩) ∧
    (∀ copy_ok len off x, (dht_read s2 copy_ok len off).out = some x →
      x = "DHT11 read error\n") ∧
    dht_ioctl s2 true DHT11_IOCTL_READ = (0, some { temp := 0, humi := 0, ok := 0 }) ∧
    (∀ copy_ok cmd d, (dht_ioctl s2 copy_ok cmd).2 = some d → d.ok = 0) := by
  have hc := poll_cycles_all_fail_cache envs s s2 (dht_init_cache k s0 s hinit).1 hfail hrun
  have hmsg : scnprintf 64 "DHT11 read error\n" = "DHT11 read error\n" := by decide
  have hlen : ("DHT11 read error\n" : String).length = 17 := by decide
  refine ⟨hc, ?_, ?_, ?_, ?_⟩
  · intro len h17
    have hl : ¬ len < 17 := by omega
    simp [dht_read, hc, hmsg, hlen, hl]
  · intro copy_ok len off x hx
    unfold dht_read at hx
    simp only [hc, hmsg, hlen, ne_eq, not_true_eq_false, if_false] at hx
    split_ifs at hx
    simp_all
  · simp [dht_ioctl, hc]
  · intro copy_ok cmd d hd
    unfold dht_ioctl at hd
    split_ifs at hd
    simp only [Option.some.injEq] at hd
    rw [← hd, hc]

set_option maxRecDepth 100000 in
/-- C15, witness: right after `dht_init`, and after a cycle that timed out, the textual
query returns the error line and the structured query the record `{0, 0, 0}`. -/
theorem init_state_queries_witness :
    dht_init init_ok state0 = (0, state_init) ∧
    all_fail [env_silent] state_init = true ∧
    poll_cycles [env_silent] state_init = some (after_cycle env_silent state_init) ∧
    dht_read (after_cycle env_silent state_init) true 64 0 =
      ⟨17, some "DHT11 read error\n", 17⟩ ∧
    dht_ioctl (after_cycle env_silent state_init) true DHT11_IOCTL_READ =
      (0, some { temp := 0, humi := 0, ok := 0 }) :=
  ⟨Prod.ext (by decide) rfl, by decide, rfl,
    (init_state_queries init_ok state0 state_init (after_cycle env_silent state_init)
      [env_silent] (Prod.ext (by decide) rfl) (by decide) rfl).2.1 64 (by decide),
    (init_state_queries init_ok state0 state_init (after_cycle env_silent state_init)
      [env_silent] (Prod.ext (by decide) rfl) (by decide) rfl).2.2.2.1⟩

theorem scnprintf_length (size : Nat) (text : String) :
    (scnprintf size text).length = min (size - 1) text.length := by
  unfold scnprintf
  show (text.data.take (size - 1)).length = min (size - 1) text.data.length
  exact List.length_take _ _

/-- The line `dht_read` formats is never empty. -/
theorem dht_read_msg_pos (d : dht11_data) :
    0 < (if d.ok ≠ 0 then
        scnprintf 64 ("T=" ++ Nat.repr d.temp ++ "C H=" ++ Nat.repr d.humi ++ "%\n")
      else scnprintf 64 "DHT11 read error\n").length := by
  split_ifs
  · rw [scnprintf_length]
    simp only [String.length_append]
    have e1 : "T=".length = 2 := by decide
    omega
  · decide

/-- C16: the textual read is single-shot: a successful `dht_read` at file offset 0 returns
`n > 0` bytes and advances the offset by `n`, and every `dht_read` with an offset greater
than 0 returns 0 bytes, delivers nothing and leaves the offset unchanged, whatever the
cache contains. -/
theorem dht_read_single_shot (s : State) (copy_ok : Bool) (len : Nat) :
    (0 ≤ (dht_read s copy_ok len 0).ret →
      0 < (dht_read s copy_ok len 0).ret ∧
      (dht_read s copy_ok len 0).off = 0 + (dht_read s copy_ok len 0).ret ∧
      (dht_read s copy_ok len 0).out.map (fun x => (x.length : Int)) =
        some (dht_read s copy_ok len 0).ret) ∧
    (∀ off, 0 < off → dht_read s copy_ok len off = ⟨0, none, off⟩) := by
  constructor
  · have hpos := dht_read_msg_pos s.g_cache
    unfold dht_read
    simp only [lt_self_iff_false, if_false, gt_iff_lt]
    generalize (if s.g_cache.ok ≠ 0 then
        scnprintf 64 ("T=" ++ Nat.repr s.g_cache.temp ++ "C H=" ++ Nat.repr s.g_cache.humi ++ "%\n")
      else scnprintf 64 "DHT11 read error\n") = msg at hpos ⊢
    intro hret
    by_cases h1 : len < msg.length
    · simp only [h1, if_true, EINVAL] at hret
      omega
    · by_cases h2 : (!copy_ok) = true
      · simp only [h1, h2, if_true, if_false, EFAULT] at hret
        omega
      · have h3 : copy_ok = true := by simpa using h2
        simp only [h1, h3, Bool.not_true, Bool.false_eq_true, if_false, zero_add,
          Option.map_some', true_and, and_true]
        exact_mod_cast hpos
  · intro off hoff
    unfold dht_read
    simp only [gt_iff_lt, hoff, if_true]

/-- C16, witness: the first read of the cache `{23, 45, 1}` returns 12 bytes and moves the
offset to 12; a read at offset 12 returns 0 bytes and leaves the offset at 12. -/
theorem dht_read_single_shot_witness :
    (0 : Int) ≤ (dht_read state_valid true 64 0).ret ∧
    (dht_read state_valid true 64 0).ret = 12 ∧
    (dht_read state_valid true 64 0).off = 0 + (dht_read state_valid true 64 0).ret ∧
    (0 : Int) < 12 ∧ dht_read state_valid true 64 12 = ⟨0, none, 12⟩ :=
  ⟨by decide, by decide,
    ((dht_read_single_shot state_valid true 64).1 (by decide)).2.1, by decide,
    (dht_read_single_shot state_valid true 64).2 12 (by decide)⟩

/-! ## Assembly of the frame -/

theorem level_bit_le (line : Nat → Int) (p : Nat) : level_bit line p ≤ 1 := by
  unfold level_bit
  split_ifs <;> omega

theorem shift_in_eq (d b : Nat) (hd : d < 128) (hb : b ≤ 1) : shift_in d b = 2 * d + b := by
  unfold shift_in
  have h1 : (d <<< 1) % 256 = d <<< 1 := by
    rw [Nat.shiftLeft_eq]
    exact Nat.mod_eq_of_lt (by omega)
  have h2 : b &&& 1 = b := by
    interval_cases b <;> rfl
  have h3 : d <<< 1 = 2 ^ 1 * d := by
    rw [Nat.shiftLeft_eq, Nat.mul_comm]
  rw [h1, h2, h3, ← Nat.mul_add_lt_is_or (by omega : b < 2 ^ 1) d]

theorem shift_in_eight (b0 b1 b2 b3 b4 b5 b6 b7 : Nat) (h0 : b0 ≤ 1) (h1 : b1 ≤ 1)
    (h2 : b2 ≤ 1) (h3 : b3 ≤ 1) (h4 : b4 ≤ 1) (h5 : b5 ≤ 1) (h6 : b6 ≤ 1) (h7 : b7 ≤ 1) :
    shift_in (shift_in (shift_in (shift_in (shift_in (shift_in (shift_in (shift_in 0 b0) b1)
      b2) b3) b4) b5) b6) b7 =
    b0 * 128 + b1 * 64 + b2 * 32 + b3 * 16 + b4 * 8 + b5 * 4 + b6 * 2 + b7 := by
  rw [shift_in_eq 0 b0 (by omega) h0, shift_in_eq _ b1 (by omega) h1,
    shift_in_eq _ b2 (by omega) h2, shift_in_eq _ b3 (by omega) h3,
    shift_in_eq _ b4 (by omega) h4, shift_in_eq _ b5 (by omega) h5,
    shift_in_eq _ b6 (by omega) h6, shift_in_eq _ b7 (by omega) h7]
  omega

theorem frame_byte_eq (c : Nat → Nat) (k : Nat) :
    frame_byte c k = c (8 * k) * 128 + c (8 * k + 1) * 64 + c (8 * k + 2) * 32 +
      c (8 * k + 3) * 16 + c (8 * k + 4) * 8 + c (8 * k + 5) * 4 + c (8 * k + 6) * 2 +
      c (8 * k + 7) := by
  simp [frame_byte, List.range, List.range.loop]
  omega

theorem feed_seq_congr (c1 c2 : Nat → Nat) :
    ∀ (n i : Nat) (data : List Nat), (∀ j, i ≤ j → c1 j = c2 j) →
      feed_seq c1 n i data = feed_seq c2 n i data := by
  intro n
  induction n with
  | zero => intro i data _; rfl
  | succ n ih =>
    intro i data h
    simp only [feed_seq]
    rw [h i (le_refl i)]
    exact ih (i + 1) _ (fun j hj => h j (by omega))

/-- The bit loop of `dht11_sample`, when it ends without timeout, has shifted into the
frame the bits found at the sample points. -/
theorem capture_bits_feed (line : Nat → Int) :
    ∀ (n i : Nat) (r0 : Int) (data : List Nat) (pos : Nat) (r : Int) (d : List Nat) (p : Nat),
      capture_bits line n i r0 data pos = some (r, d, p) → (0 < n → 0 ≤ r) →
      ∃ ps, sample_points line n pos = some ps ∧ ps.length = n ∧
        d = feed_seq (fun j => level_bit line (ps.getD (j - i) 0)) n i data := by
  intro n
  induction n with
  | zero =>
    intro i r0 data pos r d p h _
    simp only [capture_bits, Option.some.injEq, Prod.mk.injEq] at h
    exact ⟨[], rfl, rfl, by rw [← h.2.1]; rfl⟩
  | succ n ih =>
    intro i r0 data pos r d p h hr
    unfold capture_bits at h
    obtain ⟨⟨r1, p1⟩, h1⟩ := wait_pin_status_isSome line 1 120 pos
    obtain ⟨⟨r2, p2⟩, h2⟩ := wait_pin_status_isSome line 0 150 (p1 + 1)
    simp only [h1, h2] at h
    have hr0 := hr (Nat.succ_pos n)
    by_cases hr1 : r1 < 0
    · simp only [hr1, if_true, Option.some.injEq, Prod.mk.injEq] at h
      omega
    · by_cases hr2 : r2 < 0
      · simp only [hr1, hr2, if_true, if_false, Option.some.injEq, Prod.mk.injEq] at h
        omega
      · simp only [hr1, hr2, if_false] at h
        obtain ⟨ps, hps, hlen, hd⟩ := ih (i + 1) r2 _ p2 r d p h (fun _ => hr0)
        refine ⟨p1 :: ps, ?_, by simp [hlen], ?_⟩
        · simp only [sample_points, h1, h2, hr1, hr2, if_false, hps, Option.map_some']
        · rw [hd]
          simp only [feed_seq, Nat.sub_self, List.getD_cons_zero]
          apply feed_seq_congr
          intro j hj
          have e : j - i = (j - (i + 1)) + 1 := by omega
          simp only [e, List.getD_cons_succ]

theorem feed_cons (d0 d1 d2 d3 d4 i b : Nat) (hi : i < 40) :
    feed [d0, d1, d2, d3, d4] i b =
      [if i / 8 = 0 then shift_in d0 b else d0, if i / 8 = 1 then shift_in d1 b else d1,
        if i / 8 = 2 then shift_in d2 b else d2, if i / 8 = 3 then shift_in d3 b else d3,
        if i / 8 = 4 then shift_in d4 b else d4] := by
  have h5 : i / 8 < 5 := by omega
  unfold feed shift_in
  generalize i / 8 = q at h5 ⊢
  interval_cases q <;> rfl

set_option maxRecDepth 100000 in
/-- Forty bits shifted into the zero frame give the five bytes MSB-first. -/
theorem feed_seq_frame (c : Nat → Nat) (hc : ∀ j, c j ≤ 1) :
    feed_seq c 40 0 [0, 0, 0, 0, 0] = (List.range 5).map (frame_byte c) := by
  simp only [feed_seq, Nat.reduceAdd, zero_add]
  simp (disch := omega) only [feed_cons, Nat.reduceDiv, Nat.reduceEqDiff, if_true, if_false,
    OfNat.ofNat_ne_zero, OfNat.zero_ne_ofNat, OfNat.ofNat_ne_one, OfNat.one_ne_ofNat,
    zero_ne_one, one_ne_zero]
  simp only [shift_in_eight _ _ _ _ _ _ _ _ (hc _) (hc _) (hc _) (hc _) (hc _) (hc _) (hc _)
    (hc _), List.range, List.range.loop, List.map, frame_byte_eq, Nat.reduceMul,
    Nat.reduceAdd, mul_zero]

/-- C19: for every run of the bit loop of `dht11_sample` that captures its 40 bits without
timeout, the frame is assembled MSB-first within each byte: with `c i` the bit sampled in
iteration `i`, `data[k]` is the sum over `j` in `0..7` of `c (8k + j) * 2^(7 - j)`, so bits
0..7 form the humidity byte, bits 16..23 the temperature byte and bits 32..39 the checksum
byte. -/
theorem capture_bits_msb_first (line : Nat → Int) (r0 : Int) (pos : Nat) (r : Int)
    (data : List Nat) (p : Nat)
    (h : capture_bits line 40 0 r0 [0, 0, 0, 0, 0] pos = some (r, data, p)) (hr : 0 ≤ r) :
    ∃ ps, sample_points line 40 pos = some ps ∧ ps.length = 40 ∧
      data = (List.range 5).map (frame_byte (fun i => level_bit line (ps.getD i 0))) ∧
      data.getD 0 0 = frame_byte (fun i => level_bit line (ps.getD i 0)) 0 ∧
      data.getD 2 0 = frame_byte (fun i => level_bit line (ps.getD i 0)) 2 ∧
      data.getD 4 0 = frame_byte (fun i => level_bit line (ps.getD i 0)) 4 := by
  obtain ⟨ps, hps, hlen, hd⟩ := capture_bits_feed line 40 0 r0 _ pos r data p h (fun _ => hr)
  have hf := feed_seq_frame (fun i => level_bit line (ps.getD i 0))
    (fun j => level_bit_le line _)
  simp only [Nat.sub_zero] at hd
  rw [hf] at hd
  refine ⟨ps, hps, hlen, hd, ?_, ?_, ?_⟩ <;> rw [hd] <;> rfl

set_option maxRecDepth 100000 in
/-- C19, witness: on the line that carries the frame `[45, 0, 23, 0, 68]` the loop samples
at the read indices 4, 7, ..., 121 and assembles the bytes 45, 0, 23, 0, 68 from the bits
found there. -/
theorem capture_bits_msb_first_witness :
    capture_bits (line_of_frame [45, 0, 23, 0, 68]) 40 0 0 [0, 0, 0, 0, 0] 3 =
      some (0, [45, 0, 23, 0, 68], 123) ∧
    (0 : Int) ≤ 0 ∧
    sample_points (line_of_frame [45, 0, 23, 0, 68]) 40 3 =
      some ((List.range 40).map (fun i => 3 * i + 4)) ∧
    [45, 0, 23, 0, 68] =
      (List.range 5).map (frame_byte (fun i => level_bit (line_of_frame [45, 0, 23, 0, 68])
        (((List.range 40).map (fun i => 3 * i + 4)).getD i 0))) := by
  refine ⟨by decide, by decide, by decide, ?_⟩
  obtain ⟨ps, h1, _, h3, _⟩ := capture_bits_msb_first (line_of_frame [45, 0, 23, 0, 68]) 0 3 0
    [45, 0, 23, 0, 68] 123 (by decide) (by decide)
  have hps : ps = (List.range 40).map (fun i => 3 * i + 4) :=
    Option.some.inj (h1.symm.trans (by decide))
  rw [← hps]
  exact h3

/-! ## Atomicity of the snapshots -/

theorem sysinv_init (c0 : dht11_data) (res : Option (Nat × Nat)) (d0 : Nat → dht11_data) :
    SysInv c0 res (sys_init c0 d0) := by
  refine ⟨by simp [sys_init], by simp [sys_init], ?_, by simp [sys_init], ?_⟩
  · cases res with
    | none => simp [sys_init, cache_at]
    | some th => simp [sys_init, cache_at]
  · intro i
    simp [sys_init]
theorem cache_at_le_two (c0 : dht11_data) (res : Option (Nat × Nat)) (w : Nat) (h : w ≤ 2) :
    cache_at c0 res w = c0 := by
  unfold cache_at
  cases res with
  | none => simp [h]
  | some th => simp [h]

theorem sysinv_writer (c0 : dht11_data) (res : Option (Nat × Nat)) (sys : Sys)
    (h : SysInv c0 res sys) : SysInv c0 res (writer_step res sys) := by
  obtain ⟨hw, hres, hc, hl, hr⟩ := h
  have hcases : sys.wpc = 0 ∨ sys.wpc = 1 ∨ sys.wpc = 2 ∨ sys.wpc = 3 ∨ sys.wpc = 4 ∨
      sys.wpc = 5 ∨ sys.wpc = 6 := by omega
  have hnoreader : sys.lock = some Thread.writer → ∀ i, ¬ (1 ≤ sys.rpc i ∧ sys.rpc i ≤ 4) := by
    intro hlw i hi
    have := (hr i).2.1.mp hi
    rw [hlw] at this
    cases this
  rcases hcases with h0 | h0 | h0 | h0 | h0 | h0 | h0
  · -- mutex_lock
    simp only [writer_step, h0]
    by_cases hfree : sys.lock = none
    · simp only [hfree, if_true]
      refine ⟨by simp, by simp, ?_, by simp, ?_⟩
      · simp only [cache_at_le_two c0 res 1 (by omega)]
        rw [hc, h0, cache_at_le_two c0 res 0 (by omega)]
      · intro i
        obtain ⟨hi1, hi2, hi3, hi4, hi5, hi6⟩ := hr i
        have hno : ¬ (1 ≤ sys.rpc i ∧ sys.rpc i ≤ 4) := by
          intro hh
          have := hi2.mp hh
          rw [hfree] at this
          cases this
        refine ⟨hi1, ?_, hi3, hi4, hi5, hi6⟩
        simp only [hno, false_iff]
        intro hh
        cases hh
    · simp only [hfree, if_false]
      exact ⟨hw, hres, hc, hl, hr⟩
  · -- dht11_sample
    simp only [writer_step, h0]
    have hlw : sys.lock = some Thread.writer := hl.mp (by omega)
    refine ⟨by simp, by simp, ?_, ?_, ?_⟩
    · simp only [cache_at_le_two c0 res 2 (by omega)]
      rw [hc, h0, cache_at_le_two c0 res 1 (by omega)]
    · simp [hlw]
    · intro i
      exact hr i
  · -- first store
    have hlw : sys.lock = some Thread.writer := hl.mp (by omega)
    have hc0 : sys.g_cache = c0 := by rw [hc, h0, cache_at_le_two c0 res 2 (by omega)]
    cases res with
    | none =>
      simp only [writer_step, h0]
      refine ⟨by simp, by simp, ?_, by simp [hlw], ?_⟩
      · simp [cache_at, hc0]
      · intro i
        obtain ⟨hi1, hi2, hi3, hi4, hi5, hi6⟩ := hr i
        have hno := hnoreader hlw i
        dsimp only
        exact ⟨hi1, hi2, fun a b => absurd ⟨by omega, b⟩ hno,
          fun a b => absurd ⟨by omega, b⟩ hno, fun a => absurd ⟨by omega, by omega⟩ hno, hi6⟩
    | some th =>
      obtain ⟨t, hh⟩ := th
      simp only [writer_step, h0]
      refine ⟨by simp, by simp, ?_, by simp [hlw], ?_⟩
      · simp [cache_at, hc0]
      · intro i
        obtain ⟨hi1, hi2, hi3, hi4, hi5, hi6⟩ := hr i
        have hno := hnoreader hlw i
        dsimp only
        exact ⟨hi1, hi2, fun a b => absurd ⟨by omega, b⟩ hno,
          fun a b => absurd ⟨by omega, b⟩ hno, fun a => absurd ⟨by omega, by omega⟩ hno, hi6⟩
  · -- second store
    have hlw : sys.lock = some Thread.writer := hl.mp (by omega)
    cases res with
    | none => exact absurd h0 (hres rfl).1
    | some th =>
      obtain ⟨t, hh⟩ := th
      simp only [writer_step, h0]
      refine ⟨by simp, by simp, ?_, by simp [hlw], ?_⟩
      · simp [cache_at, hc, h0]
      · intro i
        obtain ⟨hi1, hi2, hi3, hi4, hi5, hi6⟩ := hr i
        have hno := hnoreader hlw i
        dsimp only
        exact ⟨hi1, hi2, fun a b => absurd ⟨by omega, b⟩ hno,
          fun a b => absurd ⟨by omega, b⟩ hno, fun a => absurd ⟨by omega, by omega⟩ hno, hi6⟩
  · -- third store
    have hlw : sys.lock = some Thread.writer := hl.mp (by omega)
    cases res with
    | none => exact absurd h0 (hres rfl).2
    | some th =>
      obtain ⟨t, hh⟩ := th
      simp only [writer_step, h0]
      refine ⟨by simp, by simp, ?_, by simp [hlw], ?_⟩
      · simp [cache_at, hc, h0]
      · intro i
        obtain ⟨hi1, hi2, hi3, hi4, hi5, hi6⟩ := hr i
        have hno := hnoreader hlw i
        dsimp only
        exact ⟨hi1, hi2, fun a b => absurd ⟨by omega, b⟩ hno,
          fun a b => absurd ⟨by omega, b⟩ hno, fun a => absurd ⟨by omega, by omega⟩ hno, hi6⟩
  · -- mutex_unlock
    simp only [writer_step, h0]
    have hlw : sys.lock = some Thread.writer := hl.mp (by omega)
    refine ⟨by simp, by simp, ?_, by simp, ?_⟩
    · cases res with
      | none => simp [cache_at, hc, h0]
      | some th => simp [cache_at, hc, h0]
    · intro i
      obtain ⟨hi1, hi2, hi3, hi4, hi5, hi6⟩ := hr i
      have hno := hnoreader hlw i
      refine ⟨hi1, ?_, hi3, hi4, hi5, hi6⟩
      simp only [hno, false_iff]
      intro hh
      cases hh
  · -- done
    simp only [writer_step, h0]
    exact ⟨hw, hres, hc, hl, hr⟩
theorem sysinv_reader (c0 : dht11_data) (res : Option (Nat × Nat)) (j : Nat) (sys : Sys)
    (h : SysInv c0 res sys) : SysInv c0 res (reader_step j sys) := by
  obtain ⟨hw, hres, hc, hl, hr⟩ := h
  obtain ⟨hj1, hj2, hj3, hj4, hj5, hj6⟩ := hr j
  have hcases : sys.rpc j = 0 ∨ sys.rpc j = 1 ∨ sys.rpc j = 2 ∨ sys.rpc j = 3 ∨
      sys.rpc j = 4 ∨ sys.rpc j = 5 := by omega
  have hother : sys.lock = some (Thread.reader j) →
      ∀ i, i ≠ j → ¬ (1 ≤ sys.rpc i ∧ sys.rpc i ≤ 4) := by
    intro hlj i hij hi
    have := (hr i).2.1.mp hi
    rw [hlj] at this
    simp only [Option.some.injEq, Thread.reader.injEq] at this
    exact hij this.symm
  have hnowriter : sys.lock = some (Thread.reader j) → sys.wpc = 0 ∨ sys.wpc = 6 := by
    intro hlj
    by_contra hcon
    have := hl.mp (by omega)
    rw [hlj] at this
    cases this
  rcases hcases with h0 | h0 | h0 | h0 | h0 | h0
  · -- mutex_lock
    simp only [reader_step, h0]
    by_cases hfree : sys.lock = none
    · simp only [hfree, if_true]
      have hnow : ¬ (1 ≤ sys.wpc ∧ sys.wpc ≤ 5) := by
        intro hh
        have := hl.mp hh
        rw [hfree] at this
        cases this
      refine ⟨hw, hres, hc, ?_, ?_⟩
      · simp only [hnow, false_iff]
        intro hh
        cases hh
      · intro i
        obtain ⟨hi1, hi2, hi3, hi4, hi5, hi6⟩ := hr i
        by_cases hij : i = j
        · subst hij
          simp
        · have hno : ¬ (1 ≤ sys.rpc i ∧ sys.rpc i ≤ 4) := by
            intro hh
            have := hi2.mp hh
            rw [hfree] at this
            cases this
          simp only [Function.update_noteq hij]
          refine ⟨hi1, ?_, hi3, hi4, hi5, hi6⟩
          simp only [hno, false_iff, Option.some.injEq, Thread.reader.injEq]
          exact fun hh => hij hh.symm
    · simp only [hfree, if_false]
      exact ⟨hw, hres, hc, hl, hr⟩
  · -- copy of temp
    simp only [reader_step, h0]
    have hlj : sys.lock = some (Thread.reader j) := hj2.mp (by omega)
    refine ⟨hw, hres, hc, hl, ?_⟩
    intro i
    obtain ⟨hi1, hi2, hi3, hi4, hi5, hi6⟩ := hr i
    by_cases hij : i = j
    · subst hij
      simp [hlj]
    · simp only [Function.update_noteq hij]
      exact ⟨hi1, hi2, hi3, hi4, hi5, hi6⟩
  · -- copy of humi
    simp only [reader_step, h0]
    have hlj : sys.lock = some (Thread.reader j) := hj2.mp (by omega)
    refine ⟨hw, hres, hc, hl, ?_⟩
    intro i
    obtain ⟨hi1, hi2, hi3, hi4, hi5, hi6⟩ := hr i
    by_cases hij : i = j
    · subst hij
      simp only [Function.update_same]
      refine ⟨by omega, by simp [hlj], fun _ _ => hi3 (by omega) (by omega), fun _ _ => trivial,
        by omega, by omega⟩
    · simp only [Function.update_noteq hij]
      exact ⟨hi1, hi2, hi3, hi4, hi5, hi6⟩
  · -- copy of ok
    simp only [reader_step, h0]
    have hlj : sys.lock = some (Thread.reader j) := hj2.mp (by omega)
    refine ⟨hw, hres, hc, hl, ?_⟩
    intro i
    obtain ⟨hi1, hi2, hi3, hi4, hi5, hi6⟩ := hr i
    by_cases hij : i = j
    · subst hij
      simp only [Function.update_same]
      refine ⟨by omega, by simp [hlj], fun _ _ => hi3 (by omega) (by omega),
        fun _ _ => hi4 (by omega) (by omega), fun _ => trivial, by omega⟩
    · simp only [Function.update_noteq hij]
      exact ⟨hi1, hi2, hi3, hi4, hi5, hi6⟩
  · -- mutex_unlock
    simp only [reader_step, h0]
    have hlj : sys.lock = some (Thread.reader j) := hj2.mp (by omega)
    have hd : sys.d j = sys.g_cache := by
      have e1 := hj3 (by omega) (by omega)
      have e2 := hj4 (by omega) (by omega)
      have e3 := hj5 h0
      cases hdj : sys.d j
      cases hcj : sys.g_cache
      rw [hdj, hcj] at e1 e2 e3
      simp only at e1 e2 e3
      rw [e1, e2, e3]
    have hnow : ¬ (1 ≤ sys.wpc ∧ sys.wpc ≤ 5) := by
      rcases hnowriter hlj with hz | hz <;> omega
    refine ⟨hw, hres, hc, ?_, ?_⟩
    · simp only [hnow, false_iff]
      intro hh
      cases hh
    · intro i
      obtain ⟨hi1, hi2, hi3, hi4, hi5, hi6⟩ := hr i
      by_cases hij : i = j
      · subst hij
        simp only [Function.update_same]
        refine ⟨by omega, by simp, by omega, by omega, by omega, fun _ => ?_⟩
        rw [hd, hc]
        rcases hnowriter hlj with hz | hz
        · left
          rw [hz, cache_at_le_two c0 res 0 (by omega)]
        · right
          rw [hz]
      · have hno := hother hlj i hij
        simp only [Function.update_noteq hij]
        refine ⟨hi1, ?_, hi3, hi4, hi5, hi6⟩
        simp only [hno, false_iff]
        intro hh
        cases hh
  · -- done
    simp only [reader_step, h0]
    exact ⟨hw, hres, hc, hl, hr⟩

theorem sysinv_run (c0 : dht11_data) (res : Option (Nat × Nat)) (sched : List Thread) :
    ∀ sys, SysInv c0 res sys → SysInv c0 res (sys_run res sched sys) := by
  induction sched with
  | nil => intro sys h; exact h
  | cons th rest ih =>
    intro sys h
    simp only [sys_run, List.foldl_cons]
    apply ih
    cases th with
    | writer => exact sysinv_writer c0 res sys h
    | reader j => exact sysinv_reader c0 res j sys h

/-- The cache after the cycle, as the interleaving model writes it, is the cache that
`poll_work_fn` leaves. -/
theorem cache_at_done (env : Env) (s : State) :
    cache_at s.g_cache (sample_outcome env s) 6 = (after_cycle env s).g_cache := by
  obtain ⟨r, hr⟩ := dht11_sample_isSome env s 0 0
  have hc := (dht11_sample_frame env s 0 0 r hr).1
  unfold sample_outcome after_cycle poll_work_fn cache_at
  simp only [hr]
  by_cases hret : r.ret = 0
  · simp [hret]
  · simp [hret, hc]

/-- C17: for every interleaving of a sample cycle (`poll_work_fn`) with any number of
concurrent readers (`dht_read`, `dht_ioctl`), every reader that has finished its locked
copy holds either the complete cache record from before the cycle or the complete record
from after it, never a mixture. -/
theorem reader_snapshot_atomic (env : Env) (s : State) (d0 : Nat → dht11_data)
    (sched : List Thread) (i : Nat)
    (hdone : (sys_run (sample_outcome env s) sched (sys_init s.g_cache d0)).rpc i = 5) :
    (sys_run (sample_outcome env s) sched (sys_init s.g_cache d0)).d i = s.g_cache ∨
    (sys_run (sample_outcome env s) sched (sys_init s.g_cache d0)).d i =
      (after_cycle env s).g_cache := by
  have hinv := sysinv_run s.g_cache (sample_outcome env s) sched _
    (sysinv_init s.g_cache (sample_outcome env s) d0)
  have h5 := (hinv.2.2.2.2 i).2.2.2.2.2 hdone
  rw [cache_at_done] at h5
  exact h5

set_option maxRecDepth 100000 in
/-- C17, witness: with the cache `{0, 0, 0}` before a successful cycle that stores
`{23, 45, 1}`, under the schedule `sched_demo` reader 0 ends with `{0, 0, 0}` and reader 1
with `{23, 45, 1}`. -/
theorem reader_snapshot_atomic_witness :
    (sys_run (sample_outcome (env_of_frame [45, 0, 23, 0, 68]) state0) sched_demo
      (sys_init state0.g_cache (fun _ => ⟨9, 9, 9⟩))).rpc 1 = 5 ∧
    (sys_run (sample_outcome (env_of_frame [45, 0, 23, 0, 68]) state0) sched_demo
      (sys_init state0.g_cache (fun _ => ⟨9, 9, 9⟩))).d 0 = ⟨0, 0, 0⟩ ∧
    (sys_run (sample_outcome (env_of_frame [45, 0, 23, 0, 68]) state0) sched_demo
      (sys_init state0.g_cache (fun _ => ⟨9, 9, 9⟩))).d 1 = ⟨23, 45, 1⟩ ∧
    ((sys_run (sample_outcome (env_of_frame [45, 0, 23, 0, 68]) state0) sched_demo
        (sys_init state0.g_cache (fun _ => ⟨9, 9, 9⟩))).d 1 = state0.g_cache ∨
      (sys_run (sample_outcome (env_of_frame [45, 0, 23, 0, 68]) state0) sched_demo
        (sys_init state0.g_cache (fun _ => ⟨9, 9, 9⟩))).d 1 =
        (after_cycle (env_of_frame [45, 0, 23, 0, 68]) state0).g_cache) :=
  ⟨by decide, by decide, by decide,
    reader_snapshot_atomic (env_of_frame [45, 0, 23, 0, 68]) state0 (fun _ => ⟨9, 9, 9⟩)
      sched_demo 1 (by decide)⟩

end Dht11

/-!
# Properties of the DS1302 driver
-/

namespace Ds1302

/-- C20, the code at the failing input: storing the time with `tm_mon = 5` and
`tm_wday = 3` and reading it back gives `tm_mon = 4` and `tm_wday = 2`; the five other
fields come back as they were set. -/
theorem read_after_set_shifts_month :
    (0 ≤ tm_june.tm_sec ∧ tm_june.tm_sec ≤ 59 ∧ 0 ≤ tm_june.tm_min ∧ tm_june.tm_min ≤ 59 ∧
      0 ≤ tm_june.tm_hour ∧ tm_june.tm_hour ≤ 23 ∧ 1 ≤ tm_june.tm_mday ∧
      tm_june.tm_mday ≤ 31 ∧ 0 ≤ tm_june.tm_mon ∧ tm_june.tm_mon ≤ 11 ∧
      0 ≤ tm_june.tm_wday ∧ tm_june.tm_wday ≤ 6 ∧ 100 ≤ tm_june.tm_year ∧
      tm_june.tm_year ≤ 199) ∧
    (ds1302_rtc_set_time true (fun _ => 0) tm_june).1 = 0 ∧
    read_after_set tm_june =
      { tm_sec := 30, tm_min := 15, tm_hour := 10, tm_mday := 15, tm_mon := 4, tm_wday := 2,
        tm_year := 125 } ∧
    read_after_set tm_june ≠ tm_june := by
  decide

end Ds1302

/-!
# Properties of the event queue of the rotary driver
-/

namespace Rotary

theorem tmod_succ (a : Int) (h0 : 0 ≤ a) : Int.tmod (a + 1) QSIZE = (a + 1) % 32 := by
  unfold QSIZE
  exact Int.tmod_eq_emod (by omega) (by omega)

theorem pending_length (s : Queue) (h : in_range s) : (pending s).length ≤ 31 := by
  obtain ⟨h1, h2, h3, h4⟩ := h
  simp only [pending, List.length_map, List.length_range]
  omega

theorem q_push_spec (s : Queue) (t v : Int) (h : in_range s) :
    in_range (q_push s t v) ∧
    pending (q_push s t v) = fifo_push (pending s) { type := t, value := v } := by
  obtain ⟨h1, h2, h3, h4⟩ := h
  have hlen : (pending s).length = ((s.qh - s.qt) % 32).toNat := by
    simp only [pending, List.length_map, List.length_range]
  unfold q_push q_full fifo_push
  rw [tmod_succ s.qh h1, hlen]
  by_cases hfull : (s.qh + 1) % 32 = s.qt
  · have hl : ¬ ((s.qh - s.qt) % 32).toNat < 31 := by omega
    simp only [hfull, decide_True, Bool.not_true, Bool.false_eq_true, if_false, hl]
    exact ⟨⟨h1, h2, h3, h4⟩, trivial⟩
  · have hl : ((s.qh - s.qt) % 32).toNat < 31 := by omega
    simp only [hfull, decide_False, Bool.not_false, if_true, hl]
    constructor
    · unfold in_range
      dsimp only
      omega
    · have hn : (((s.qh + 1) % 32 - s.qt) % 32).toNat = ((s.qh - s.qt) % 32).toNat + 1 := by
        omega
      unfold pending
      dsimp only
      rw [hn, List.range_succ, List.map_append, List.map_cons, List.map_nil]
      congr 1
      · apply List.map_congr_left
        intro k hk
        have hk2 := List.mem_range.mp hk
        have hne : ((s.qt + (k : Int)) % 32).toNat ≠ s.qh.toNat := by omega
        rw [Function.update_noteq hne]
      · have he : ((s.qt + ((((s.qh - s.qt) % 32).toNat : Nat) : Int)) % 32).toNat
            = s.qh.toNat := by
          omega
        rw [he, Function.update_same]

theorem q_pop_spec (s : Queue) (out : rot_event) (h : in_range s) :
    in_range (q_pop s out).2.2 ∧
    ((q_pop s out).1, if (q_pop s out).1 = 1 then some (q_pop s out).2.1 else none) =
      (fifo_pop (pending s)).1 ∧
    pending (q_pop s out).2.2 = (fifo_pop (pending s)).2 := by
  obtain ⟨h1, h2, h3, h4⟩ := h
  unfold q_pop q_empty
  by_cases he : s.qh = s.qt
  · have hp : pending s = [] := by
      simp only [pending, he, sub_self]
      rfl
    simp only [he, decide_True, if_true, hp, fifo_pop]
    refine ⟨⟨by omega, by omega, h3, h4⟩, by simp, ?_⟩
    simp only [pending, sub_self]
  · obtain ⟨n, hn⟩ : ∃ n, ((s.qh - s.qt) % 32).toNat = n + 1 :=
      ⟨((s.qh - s.qt) % 32).toNat - 1, by omega⟩
    have hp : pending s = s.q s.qt.toNat ::
        (List.range n).map
          (fun (k : Nat) => s.q ((s.qt + ((k + 1 : Nat) : Int)) % 32).toNat) := by
      unfold pending
      rw [hn, List.range_succ_eq_map, List.map_cons, List.map_map]
      congr 1
      congr 2
      omega
    simp only [he, decide_False, Bool.false_eq_true, if_false, hp, fifo_pop,
      tmod_succ s.qt h3]
    refine ⟨?_, by simp, ?_⟩
    · unfold in_range
      dsimp only
      omega
    · have hn2 : ((s.qh - (s.qt + 1) % 32) % 32).toNat = n := by omega
      unfold pending
      dsimp only
      rw [hn2]
      apply List.map_congr_left
      intro k _
      congr 1
      push_cast
      omega


theorem run_ops_refines (ops : List Op) :
    ∀ s, in_range s →
      in_range (run_ops ops s).1 ∧
      pending (run_ops ops s).1 = (fifo_run ops (pending s)).1 ∧
      (run_ops ops s).2 = (fifo_run ops (pending s)).2 := by
  induction ops with
  | nil => intro s h; exact ⟨h, rfl, rfl⟩
  | cons op rest ih =>
    intro s h
    cases op with
    | push t v =>
      obtain ⟨hr, hp⟩ := q_push_spec s t v h
      have := ih (q_push s t v) hr
      simp only [run_ops, fifo_run]
      rw [← hp]
      exact this
    | pop =>
      obtain ⟨hr, ho, hp⟩ := q_pop_spec s { type := 0, value := 0 } h
      obtain ⟨i1, i2, i3⟩ := ih (q_pop s { type := 0, value := 0 }).2.2 hr
      simp only [run_ops, fifo_run]
      rw [← hp, ← ho]
      exact ⟨i1, i2, by rw [i3]⟩

theorem pending_init (q : Nat → rot_event) : pending (queue_init q) = [] := by
  simp [pending, queue_init]

/-- C22: the ring buffer `q`, `qh`, `qt` with `QSIZE = 32` is a bounded FIFO queue of
capacity 31: from `qh = qt = 0`, after every sequence of `q_push` and `q_pop` calls the
indices lie in `0..31`, the pending events and the results of all pops are those of the
FIFO queue, `q_pop` returns 0 exactly when nothing is pending and otherwise returns 1 with
the oldest pending event, and a `q_push` made while 31 events are pending changes
nothing. -/
theorem ring_buffer_fifo (q0 : Nat → rot_event) (ops : List Op) (t v : Int)
    (out : rot_event) :
    (0 ≤ (run_ops ops (queue_init q0)).1.qh ∧ (run_ops ops (queue_init q0)).1.qh < 32 ∧
      0 ≤ (run_ops ops (queue_init q0)).1.qt ∧ (run_ops ops (queue_init q0)).1.qt < 32) ∧
    pending (run_ops ops (queue_init q0)).1 = (fifo_run ops []).1 ∧
    (run_ops ops (queue_init q0)).2 = (fifo_run ops []).2 ∧
    (pending (run_ops ops (queue_init q0)).1).length ≤ 31 ∧
    ((q_pop (run_ops ops (queue_init q0)).1 out).1 = 0 ↔
      pending (run_ops ops (queue_init q0)).1 = []) ∧
    (∀ e rest, pending (run_ops ops (queue_init q0)).1 = e :: rest →
      (q_pop (run_ops ops (queue_init q0)).1 out).1 = 1 ∧
      (q_pop (run_ops ops (queue_init q0)).1 out).2.1 = e ∧
      pending (q_pop (run_ops ops (queue_init q0)).1 out).2.2 = rest) ∧
    ((pending (run_ops ops (queue_init q0)).1).length = 31 →
      pending (q_push (run_ops ops (queue_init q0)).1 t v) =
        pending (run_ops ops (queue_init q0)).1 ∧
      (q_push (run_ops ops (queue_init q0)).1 t v).qh = (run_ops ops (queue_init q0)).1.qh ∧
      (q_push (run_ops ops (queue_init q0)).1 t v).qt = (run_ops ops (queue_init q0)).1.qt) ∧
    ((pending (run_ops ops (queue_init q0)).1).length < 31 →
      pending (q_push (run_ops ops (queue_init q0)).1 t v) =
        pending (run_ops ops (queue_init q0)).1 ++ [{ type := t, value := v }]) := by
  have hinit : in_range (queue_init q0) := by
    unfold in_range queue_init
    dsimp only
    omega
  obtain ⟨hr, hp, ho⟩ := run_ops_refines ops (queue_init q0) hinit
  rw [pending_init] at hp ho
  generalize (run_ops ops (queue_init q0)).1 = s at hr hp ⊢
  obtain ⟨pr, po, pp⟩ := q_pop_spec s out hr
  obtain ⟨qr, qp⟩ := q_push_spec s t v hr
  refine ⟨hr, hp, ho, pending_length s hr, ?_, ?_, ?_, ?_⟩
  · cases hpd : pending s with
    | nil =>
      rw [hpd] at po
      simp only [fifo_pop, Prod.mk.injEq] at po
      simp [po.1]
    | cons e rest =>
      rw [hpd] at po
      simp only [fifo_pop, Prod.mk.injEq] at po
      simp [po.1]
  · intro e rest hpd
    rw [hpd] at po pp
    simp only [fifo_pop, Prod.mk.injEq] at po pp
    refine ⟨po.1, ?_, pp⟩
    have h2 := po.2
    rw [po.1] at h2
    simpa using h2
  · intro h31
    have hfull : q_full s = true := by
      have hlen : (pending s).length = ((s.qh - s.qt) % 32).toNat := by
        simp only [pending, List.length_map, List.length_range]
      obtain ⟨h1, h2, h3, h4⟩ := hr
      unfold q_full
      rw [tmod_succ s.qh h1]
      simp only [decide_eq_true_eq]
      omega
    have hsame : q_push s t v = s := by
      unfold q_push
      simp [hfull]
    rw [hsame]
    exact ⟨rfl, rfl, rfl⟩
  · intro hlt
    rw [qp]
    unfold fifo_push
    simp [hlt]

set_option maxRecDepth 100000 in
/-- C22, witness: the pops of `ops_demo` return the events in the order of their pushes
and then 0; after `ops_fill` 31 events are pending and one more `q_push` changes nothing,
while the next `q_pop` returns the oldest event. -/
theorem ring_buffer_fifo_witness :
    (run_ops ops_demo (queue_init q_zero)).2 =
      [(1, some ⟨0, 1⟩), (1, some ⟨0, -1⟩), (1, some ⟨1, 1⟩), (0, none)] ∧
    (pending (run_ops ops_fill (queue_init q_zero)).1).length = 31 ∧
    pending (q_push (run_ops ops_fill (queue_init q_zero)).1 1 1) =
      pending (run_ops ops_fill (queue_init q_zero)).1 ∧
    pending (run_ops ops_fill (queue_init q_zero)).1 =
      ⟨0, 0⟩ :: (List.range 30).map (fun (k : Nat) => ⟨0, ((k + 1 : Nat) : Int)⟩) ∧
    (q_pop (run_ops ops_fill (queue_init q_zero)).1 ⟨5, 5⟩).1 = 1 ∧
    (q_pop (run_ops ops_fill (queue_init q_zero)).1 ⟨5, 5⟩).2.1 = ⟨0, 0⟩ :=
  ⟨(ring_buffer_fifo q_zero ops_demo 0 0 ⟨0, 0⟩).2.2.1.trans (by decide), by decide,
    ((ring_buffer_fifo q_zero ops_fill 1 1 ⟨5, 5⟩).2.2.2.2.2.2.1 (by decide)).1, by decide,
    ((ring_buffer_fifo q_zero ops_fill 1 1 ⟨5, 5⟩).2.2.2.2.2.1 ⟨0, 0⟩
      ((List.range 30).map (fun (k : Nat) => ⟨0, ((k + 1 : Nat) : Int)⟩)) (by decide)).1,
    ((ring_buffer_fifo q_zero ops_fill 1 1 ⟨5, 5⟩).2.2.2.2.2.1 ⟨0, 0⟩
      ((List.range 30).map (fun (k : Nat) => ⟨0, ((k + 1 : Nat) : Int)⟩)) (by decide)).2.1⟩

end Rotary

/-!
# Properties of the user-space reader
-/

namespace EnvOled

theorem strtol_digits_append (ds rest : List Char) :
    ∀ acc, (∀ c, c ∈ ds → is_digit c = true) →
      (∀ c, rest.head? = some c → is_digit c = false) →
      strtol_digits (ds ++ rest) acc = (digits_value ds acc, rest) := by
  induction ds with
  | nil =>
    intro acc _ hrest
    cases rest with
    | nil => rfl
    | cons c r =>
      have := hrest c rfl
      simp [strtol_digits, this, digits_value]
  | cons d ds ih =>
    intro acc hds hrest
    have hd := hds d (List.mem_cons_self d ds)
    have hi := ih (acc * 10 + (d.toNat - 48)) (fun c hc => hds c (List.mem_cons_of_mem d hc))
      hrest
    simp only [List.cons_append, strtol_digits, hd, if_true]
    exact hi

theorem is_digit_props (d : Char) (hd : is_digit d = true) : d.toNat ≠ 0 ∧ d ≠ '-' := by
  unfold is_digit at hd
  simp only [decide_eq_true_eq] at hd
  constructor
  · intro h0
    have h1 : ('0' : Char).toNat ≤ d.toNat := hd.1
    have h2 : ('0' : Char).toNat = 48 := by decide
    omega
  · intro h
    rw [h] at hd
    exact absurd hd (by decide)

theorem strtol_number (d : Char) (ds rest : List Char)
    (hds : ∀ c, c ∈ d :: ds → is_digit c = true)
    (hrest : ∀ c, rest.head? = some c → is_digit c = false) :
    strtol ((d :: ds) ++ rest) = (min LONG_MAX (digits_value (d :: ds) 0 : Int), rest) := by
  have hd := hds d (List.mem_cons_self d ds)
  have hp := is_digit_props d hd
  have h := strtol_digits_append (d :: ds) rest 0 hds hrest
  simp only [List.cons_append] at h ⊢
  simp only [strtol, hp.2, hd, if_true, if_false, h]

theorem parse_loop_skip (fuel : Nat) (c : Char) (rest : List Char) (cnt : Nat) (v0 v1 : Int)
    (h0 : c.toNat ≠ 0) (hcnt : cnt < 2) (hd : is_digit c = false) (hm : c ≠ '-') :
    parse_loop (fuel + 1) (c :: rest) cnt v0 v1 = parse_loop fuel rest cnt v0 v1 := by
  simp [parse_loop, h0, hcnt, hd, hm]

theorem parse_loop_done (fuel : Nat) (p : List Char) (v0 v1 : Int) :
    parse_loop (fuel + 1) p 2 v0 v1 = some (2, v0, v1) := by
  cases p with
  | nil => rfl
  | cons c rest => simp [parse_loop]

theorem parse_loop_number (fuel : Nat) (d : Char) (ds rest : List Char) (cnt : Nat)
    (v0 v1 : Int) (hds : ∀ c, c ∈ d :: ds → is_digit c = true)
    (hrest : ∀ c, rest.head? = some c → is_digit c = false) (hcnt : cnt < 2)
    (hval : digits_value (d :: ds) 0 < 2 ^ 31) :
    parse_loop (fuel + 1) ((d :: ds) ++ rest) cnt v0 v1 =
      if cnt = 0 then parse_loop fuel rest (cnt + 1) (digits_value (d :: ds) 0 : Int) v1
      else parse_loop fuel rest (cnt + 1) v0 (digits_value (d :: ds) 0 : Int) := by
  have hd := hds d (List.mem_cons_self d ds)
  have hp := is_digit_props d hd
  have hs := strtol_number d ds rest hds hrest
  have hmin : min LONG_MAX (digits_value (d :: ds) 0 : Int) = (digits_value (d :: ds) 0 : Int) := by
    unfold LONG_MAX
    omega
  have hto : to_int (digits_value (d :: ds) 0 : Int) = (digits_value (d :: ds) 0 : Int) := by
    unfold to_int
    omega
  rw [hmin] at hs
  simp only [List.cons_append] at hs ⊢
  have hlen : rest.length ≠ (d :: (ds ++ rest)).length := by
    simp only [List.length_cons, List.length_append]
    omega
  simp only [parse_loop, hp.1, hcnt, hd, hs, hto, hlen, ne_eq, not_false_eq_true, if_true,
    true_or, or_false, not_true_eq_false, if_false, false_or]


set_option maxRecDepth 100000 in
theorem repr_digits_u8 : ∀ n, n < 256 →
    (Nat.repr n).data ≠ [] ∧ (Nat.repr n).data.all is_digit = true ∧
    digits_value (Nat.repr n).data 0 = n := by
  decide

/-- The loop finds the two numbers of a line `T=<digits>C H=<digits>%` that ends with a
newline. -/
theorem parse_loop_valid (k : Nat) (d1 : Char) (ds1 : List Char) (d2 : Char)
    (ds2 : List Char) (h1 : ∀ c, c ∈ d1 :: ds1 → is_digit c = true)
    (h2 : ∀ c, c ∈ d2 :: ds2 → is_digit c = true)
    (hv1 : digits_value (d1 :: ds1) 0 < 2 ^ 31) (hv2 : digits_value (d2 :: ds2) 0 < 2 ^ 31) :
    parse_loop (k + 1 + 1 + 1 + 1 + 1 + 1 + 1 + 1 + 1)
      ('T' :: '=' :: ((d1 :: ds1) ++ ('C' :: ' ' :: 'H' :: '=' :: ((d2 :: ds2) ++ ['%', '\n']))))
      0 0 0 =
    some (2, (digits_value (d1 :: ds1) 0 : Int), (digits_value (d2 :: ds2) 0 : Int)) := by
  rw [parse_loop_skip _ 'T' _ 0 0 0 (by decide) (by decide) (by decide) (by decide),
    parse_loop_skip _ '=' _ 0 0 0 (by decide) (by decide) (by decide) (by decide),
    parse_loop_number _ d1 ds1 _ 0 0 0 h1 (by intro c hc; cases hc; decide) (by decide) hv1]
  simp only [if_true, zero_add]
  rw [parse_loop_skip _ 'C' _ 1 _ 0 (by decide) (by decide) (by decide) (by decide),
    parse_loop_skip _ ' ' _ 1 _ 0 (by decide) (by decide) (by decide) (by decide),
    parse_loop_skip _ 'H' _ 1 _ 0 (by decide) (by decide) (by decide) (by decide),
    parse_loop_skip _ '=' _ 1 _ 0 (by decide) (by decide) (by decide) (by decide),
    parse_loop_number _ d2 ds2 _ 1 _ 0 h2 (by intro c hc; cases hc; decide) (by decide) hv2]
  simp only [one_ne_zero, if_false, Nat.reduceAdd]
  exact parse_loop_done _ _ _ _

/-- The driver's valid line for a snapshot of two bytes is decoded to these bytes. -/
theorem parse_two_ints_valid (t h : Nat) (ht : t < 256) (hh : h < 256) (a b : Int) :
    parse_two_ints ("T=" ++ Nat.repr t ++ "C H=" ++ Nat.repr h ++ "%\n").data a b =
      some (0, (t : Int), (h : Int)) := by
  obtain ⟨n1, a1, v1⟩ := repr_digits_u8 t ht
  obtain ⟨n2, a2, v2⟩ := repr_digits_u8 h hh
  obtain ⟨d1, ds1, e1⟩ := List.exists_cons_of_ne_nil n1
  obtain ⟨d2, ds2, e2⟩ := List.exists_cons_of_ne_nil n2
  rw [e1] at a1 v1
  rw [e2] at a2 v2
  have hline : ("T=" ++ Nat.repr t ++ "C H=" ++ Nat.repr h ++ "%\n").data =
      'T' :: '=' :: ((d1 :: ds1) ++ ('C' :: ' ' :: 'H' :: '=' :: ((d2 :: ds2) ++ ['%', '\n']))) := by
    simp only [String.data_append, e1, e2]
    simp
  have hfuel : ('T' :: '=' :: ((d1 :: ds1) ++
      ('C' :: ' ' :: 'H' :: '=' :: ((d2 :: ds2) ++ ['%', '\n'])))).length + 1 =
      (ds1.length + ds2.length + 2) + 1 + 1 + 1 + 1 + 1 + 1 + 1 + 1 + 1 := by
    simp only [List.length_cons, List.length_append, List.length_nil]
    omega
  unfold parse_two_ints
  rw [hline, hfuel, parse_loop_valid _ d1 ds1 d2 ds2
    (fun c hc => List.all_eq_true.mp a1 c hc) (fun c hc => List.all_eq_true.mp a2 c hc)
    (by rw [v1]; omega) (by rw [v2]; omega), v1, v2]
  rfl


/-- What `dht_read_now` returns when the device file opens, for a snapshot of bytes. -/
theorem dht_read_now_eq (s : Dht11.State) (a b : Int) (ht : s.g_cache.temp < 256)
    (hh : s.g_cache.humi < 256) :
    dht_read_now true s a b =
      if s.g_cache.ok ≠ 0 then some (0, (s.g_cache.temp : Int), (s.g_cache.humi : Int))
      else some (-1, a, b) := by
  have hr := Dht11.dht_read_msg s ht hh true 95
  have hl := Dht11.spec_line_length s.g_cache ht hh
  have hpos : 0 < (Dht11.spec_line s.g_cache).length := by
    unfold Dht11.spec_line
    split_ifs
    · simp only [String.length_append]
      have e1 : "T=".length = 2 := by decide
      omega
    · decide
  have hlt : ¬ 95 < (Dht11.spec_line s.g_cache).length := by omega
  simp only [hlt, if_false, Bool.not_true, Bool.false_eq_true] at hr
  have hf : read_file_once true s 96 =
      (((Dht11.spec_line s.g_cache).length : Int), (Dht11.spec_line s.g_cache).data) := by
    unfold read_file_once
    have hnp : ¬ ((Dht11.spec_line s.g_cache).length : Int) ≤ 0 := by omega
    simp only [Bool.not_true, Bool.false_eq_true, if_false, Nat.add_one_sub_one, hr, hnp,
      Option.getD_some]
  unfold dht_read_now
  have hn : ¬ ((Dht11.spec_line s.g_cache).length : Int) < 0 := by omega
  simp only [hf, hn, if_false]
  by_cases hok : s.g_cache.ok ≠ 0
  · have hline : Dht11.spec_line s.g_cache =
        "T=" ++ Nat.repr s.g_cache.temp ++ "C H=" ++ Nat.repr s.g_cache.humi ++ "%\n" := by
      unfold Dht11.spec_line
      rw [if_pos hok]
    rw [hline, parse_two_ints_valid _ _ ht hh 0 0]
    simp only [hok, ne_eq, not_false_eq_true, if_true]
  · have hline : Dht11.spec_line s.g_cache = "DHT11 read error\n" := by
      unfold Dht11.spec_line
      rw [if_neg hok]
    have hp : parse_two_ints "DHT11 read error\n".data 0 0 = some (-1, 0, 0) := by decide
    rw [hline, hp]
    simp only [hok, if_false]
    rfl

/-- C21: the user-space reader decodes exactly what the sensor driver's textual query
encodes: for every `temp` and `humi` in `0..255`, `parse_two_ints` applied to the driver's
valid line `T=<temp>C H=<humi>%` with a newline returns 0 with `(a, b) = (temp, humi)`, and
applied to the driver's error line `DHT11 read error` (which contains the digits 11) it
returns -1 and leaves `a` and `b`; so `dht_read_now`, once the device file is open, reports
success if and only if the driver's snapshot was valid, and then with its two values. -/
theorem reader_decodes_driver (s : Dht11.State) (a b : Int) (ht : s.g_cache.temp < 256)
    (hh : s.g_cache.humi < 256) :
    parse_two_ints
        ("T=" ++ Nat.repr s.g_cache.temp ++ "C H=" ++ Nat.repr s.g_cache.humi ++ "%\n").data a b =
      some (0, (s.g_cache.temp : Int), (s.g_cache.humi : Int)) ∧
    parse_two_ints "DHT11 read error\n".data a b = some (-1, a, b) ∧
    ((dht_read_now true s a b).map (fun r => r.1) = some 0 ↔ s.g_cache.ok ≠ 0) ∧
    (s.g_cache.ok ≠ 0 →
      dht_read_now true s a b = some (0, (s.g_cache.temp : Int), (s.g_cache.humi : Int))) ∧
    (s.g_cache.ok = 0 → dht_read_now true s a b = some (-1, a, b)) ∧
    dht_read_now false s a b = some (-1, a, b) := by
  have hnow := dht_read_now_eq s a b ht hh
  refine ⟨parse_two_ints_valid _ _ ht hh a b, ?_, ?_, ?_, ?_, ?_⟩
  · have hl : parse_loop ("DHT11 read error\n".data.length + 1) "DHT11 read error\n".data 0 0 0
        = some (1, 11, 0) := by decide
    unfold parse_two_ints
    rw [hl]
    rfl
  · rw [hnow]
    by_cases hok : s.g_cache.ok ≠ 0
    · simp [hok]
    · simp [hok]
  · intro hok
    rw [hnow, if_pos hok]
  · intro hok
    rw [hnow, if_neg (by simpa using hok)]
  · rfl

/-- C21, witness: the snapshot `{23, 45, 1}` is read as success with 23 and 45; the
snapshot `{0, 0, 0}` as failure, the caller's 7 and 9 untouched. -/
theorem reader_decodes_driver_witness :
    Dht11.state_valid.g_cache.temp < 256 ∧ Dht11.state_valid.g_cache.humi < 256 ∧
    Dht11.state_valid.g_cache.ok ≠ 0 ∧ Dht11.state0.g_cache.ok = 0 ∧
    parse_two_ints "T=23C H=45%\n".data 7 9 = some (0, 23, 45) ∧
    dht_read_now true Dht11.state_valid 7 9 = some (0, 23, 45) ∧
    dht_read_now true Dht11.state0 7 9 = some (-1, 7, 9) :=
  ⟨by decide, by decide, by decide, by decide,
    (reader_decodes_driver Dht11.state_valid 7 9 (by decide) (by decide)).1,
    (reader_decodes_driver Dht11.state_valid 7 9 (by decide) (by decide)).2.2.2.1 (by decide),
    (reader_decodes_driver Dht11.state0 7 9 (by decide) (by decide)).2.2.2.2.1 rfl⟩

end EnvOled
